import Mathlib

/-!
A verification development for the core of the isla symbolic interpreter.

The Rust sources embedded here are:
  * `src/concrete.rs` — the prototype fixed-width bitvector value model (`Sbits`);
  * `isla-lib/src/executor.rs` — the symbolic-allocation routine, variable
    lookup/lazy initialisation, the expression evaluator and the per-path
    instruction interpreter;
  * `src/main.rs` — the prototype interpreter carrying the backward-jump budget;
  * `isla-lib/src/simplify.rs` — trace renumbering, dead-symbol elimination and
    the textual trace writer.

Machine integers become `Nat` with explicit `% 2 ^ 64` where Rust `u64`
arithmetic wraps.  Rust functions returning `Result` become `Except Error`.
A Rust panic (which aborts the process rather than returning an error value)
is modelled by `Error.Fatal` inside `Except`, and by `Option.none` for the
`Sbits` operator impls whose output type has no error channel at all.
External collaborators (the SMT solver binding, the symbol table, rendering
of values) enter as explicit state or as function parameters.
-/

/-! ## Error kinds (isla-lib/src/error.rs, reconstructed from use sites) -/

/-- Error type delivered to collectors.  `Fatal` models a Rust `panic!`
(process abort); the remaining constructors are the `Err` values the source
produces. -/
inductive Error where
  | NoSymbolicType : Error
  | TypeErr (msg : String) : Error
  | Unimplemented : Error
  | Dead : Error
  | Exit : Error
  | Unreachable (msg : String) : Error
  | SolverErr : Error
  | Fatal (msg : String) : Error
deriving Repr, DecidableEq

/-! ## Concrete bitvectors (src/concrete.rs)

`Sbits` is the pair `{ length: u32, bits: u64 }`.  The source masks results
with the x86 `BZHI` instruction: `_bzhi_u64(bits, len)` zeroes all bits of
`bits` at index `len` and above, and returns `bits` unchanged when
`len ≥ 64`.  Rust `u64` arithmetic wraps modulo `2 ^ 64` (release
semantics), written out explicitly below. -/

/-- `bzhi_u64` from src/concrete.rs: zero the high bits from index `len`;
the instruction is the identity for `len ≥ 64`. -/
def bzhi_u64 (bits : Nat) (len : Nat) : Nat :=
  if 64 ≤ len then bits else bits % 2 ^ len

/-- The `Sbits` struct: `length: u32`, `bits: u64`. -/
structure Sbits where
  length : Nat
  bits : Nat
deriving Repr, DecidableEq

namespace Sbits

/-- `Sbits::new(bits, length)`. -/
def new (bits : Nat) (length : Nat) : Sbits := { length := length, bits := bits }

/-- `Sbits::from_u8` (isla-lib); the spec describes enum members as
"a zero-extended 8-bit concrete bitvector giving the member's ordinal
position". -/
def from_u8 (n : Nat) : Sbits := { length := 8, bits := n % 2 ^ 8 }

/-- `impl Not for Sbits`: `bzhi_u64(!self.bits, self.length)`; `!` on `u64`
is complement within 64 bits. -/
def snot (x : Sbits) : Sbits :=
  { length := x.length, bits := bzhi_u64 ((2 ^ 64 - 1) - x.bits) x.length }

/-- `impl BitXor for Sbits`: `self.bits ^ rhs.bits`, no masking. -/
def sxor (x y : Sbits) : Sbits :=
  { length := x.length, bits := x.bits ^^^ y.bits }

/-- `impl BitOr for Sbits`: `self.bits | rhs.bits`, no masking. -/
def sor (x y : Sbits) : Sbits :=
  { length := x.length, bits := x.bits ||| y.bits }

/-- `impl BitAnd for Sbits`: `self.bits & rhs.bits`, no masking. -/
def sand (x y : Sbits) : Sbits :=
  { length := x.length, bits := x.bits &&& y.bits }

/-- `impl Neg for Sbits`: `bzhi_u64((-(self.bits as i64)) as u64, self.length)`,
i.e. two's-complement negation within 64 bits, then masked. -/
def sneg (x : Sbits) : Sbits :=
  { length := x.length, bits := bzhi_u64 ((2 ^ 64 - x.bits) % 2 ^ 64) x.length }

/-- `impl Add for Sbits`: `bzhi_u64(self.bits + rhs.bits, self.length)` with
wrapping `u64` addition. -/
def sadd (x y : Sbits) : Sbits :=
  { length := x.length, bits := bzhi_u64 ((x.bits + y.bits) % 2 ^ 64) x.length }

/-- `impl Sub for Sbits`: `bzhi_u64(self.bits - rhs.bits, self.length)` with
wrapping `u64` subtraction. -/
def ssub (x y : Sbits) : Sbits :=
  { length := x.length, bits := bzhi_u64 ((2 ^ 64 + x.bits - y.bits) % 2 ^ 64) x.length }

/-- `impl Mul for Sbits`: `bzhi_u64(self.bits * rhs.bits, self.length)` with
wrapping `u64` multiplication. -/
def smul (x y : Sbits) : Sbits :=
  { length := x.length, bits := bzhi_u64 ((x.bits * y.bits) % 2 ^ 64) x.length }

/-- `impl Div for Sbits`: `bzhi_u64(self.bits / rhs.bits, self.length)`.
Rust `u64` division by zero panics, aborting the process: the impl's output
type is a plain `Sbits` with no error channel, so the panic is modelled as
`none`. -/
def sdiv (x y : Sbits) : Option Sbits :=
  if y.bits = 0 then none
  else some { length := x.length, bits := bzhi_u64 (x.bits / y.bits) x.length }

/-- `impl Rem for Sbits`: `bzhi_u64(self.bits % rhs.bits, self.length)`.
Rust `u64` remainder by zero panics; modelled as `none` as for `sdiv`. -/
def srem (x y : Sbits) : Option Sbits :=
  if y.bits = 0 then none
  else some { length := x.length, bits := bzhi_u64 (x.bits % y.bits) x.length }

end Sbits

/-! ## IR types (isla-lib `Ty<u32>`, reconstructed from its use sites in
executor.rs: the variants matched there are Unit, Bits, I64, I128, Bool, Bit,
Struct, Enum and Vector; further variants all fall into the `_` catch-all of
`symbolic`, for which `Vector` already serves as a representative). -/

/-- IR types.  Identifiers are 32-bit interned symbols, modelled as `Nat`. -/
inductive Ty where
  | Unit : Ty
  | Bool : Ty
  | Bit : Ty
  | I64 : Ty
  | I128 : Ty
  | Bits (n : Nat) : Ty
  | Struct (name : Nat) : Ty
  | Enum (name : Nat) : Ty
  | Vector (ty : Ty) : Ty
deriving Repr, DecidableEq

/-! ## SMTLIB terms (isla-smt smtlib, reconstructed from simplify.rs and
executor.rs use sites: the constructors below are exactly those matched by
`uses_in_exp` and produced by `symbolic` and the Jump case of `run`). -/

/-- SMT sorts. -/
inductive SmtTy where
  | Bool : SmtTy
  | BitVec (n : Nat) : SmtTy
deriving Repr, DecidableEq

set_option maxHeartbeats 1600000 in
/-- SMTLIB expressions, with the constructor set matched by `uses_in_exp`. -/
inductive SmtExp where
  | Var (v : Nat) : SmtExp
  | Bits (bs : List Bool) : SmtExp
  | Bits64 (bits : Nat) (len : Nat) : SmtExp
  | Bool (b : Bool) : SmtExp
  | Not (e : SmtExp) : SmtExp
  | Bvnot (e : SmtExp) : SmtExp
  | Bvneg (e : SmtExp) : SmtExp
  | Extract (hi : Nat) (lo : Nat) (e : SmtExp) : SmtExp
  | ZeroExtend (n : Nat) (e : SmtExp) : SmtExp
  | SignExtend (n : Nat) (e : SmtExp) : SmtExp
  | Eq (lhs : SmtExp) (rhs : SmtExp) : SmtExp
  | Neq (lhs : SmtExp) (rhs : SmtExp) : SmtExp
  | And (lhs : SmtExp) (rhs : SmtExp) : SmtExp
  | Or (lhs : SmtExp) (rhs : SmtExp) : SmtExp
  | Bvand (lhs : SmtExp) (rhs : SmtExp) : SmtExp
  | Bvor (lhs : SmtExp) (rhs : SmtExp) : SmtExp
  | Bvxor (lhs : SmtExp) (rhs : SmtExp) : SmtExp
  | Bvnand (lhs : SmtExp) (rhs : SmtExp) : SmtExp
  | Bvnor (lhs : SmtExp) (rhs : SmtExp) : SmtExp
  | Bvxnor (lhs : SmtExp) (rhs : SmtExp) : SmtExp
  | Bvadd (lhs : SmtExp) (rhs : SmtExp) : SmtExp
  | Bvsub (lhs : SmtExp) (rhs : SmtExp) : SmtExp
  | Bvmul (lhs : SmtExp) (rhs : SmtExp) : SmtExp
  | Bvudiv (lhs : SmtExp) (rhs : SmtExp) : SmtExp
  | Bvsdiv (lhs : SmtExp) (rhs : SmtExp) : SmtExp
  | Bvurem (lhs : SmtExp) (rhs : SmtExp) : SmtExp
  | Bvsrem (lhs : SmtExp) (rhs : SmtExp) : SmtExp
  | Bvsmod (lhs : SmtExp) (rhs : SmtExp) : SmtExp
  | Bvult (lhs : SmtExp) (rhs : SmtExp) : SmtExp
  | Bvslt (lhs : SmtExp) (rhs : SmtExp) : SmtExp
  | Bvule (lhs : SmtExp) (rhs : SmtExp) : SmtExp
  | Bvsle (lhs : SmtExp) (rhs : SmtExp) : SmtExp
  | Bvuge (lhs : SmtExp) (rhs : SmtExp) : SmtExp
  | Bvsge (lhs : SmtExp) (rhs : SmtExp) : SmtExp
  | Bvugt (lhs : SmtExp) (rhs : SmtExp) : SmtExp
  | Bvsgt (lhs : SmtExp) (rhs : SmtExp) : SmtExp
  | Bvshl (lhs : SmtExp) (rhs : SmtExp) : SmtExp
  | Bvlshr (lhs : SmtExp) (rhs : SmtExp) : SmtExp
  | Bvashr (lhs : SmtExp) (rhs : SmtExp) : SmtExp
  | Concat (lhs : SmtExp) (rhs : SmtExp) : SmtExp
  | Ite (cond : SmtExp) (thenExp : SmtExp) (elseExp : SmtExp) : SmtExp
deriving Repr, DecidableEq

/-- SMTLIB definitions. -/
inductive Def where
  | DeclareConst (v : Nat) (ty : SmtTy) : Def
  | DefineConst (v : Nat) (e : SmtExp) : Def
  | Assert (e : SmtExp) : Def
deriving Repr, DecidableEq

/-! ## Values (isla-lib `Val`, per the spec data model and the variant set
matched in executor.rs and simplify.rs).  `Struct` carries a map from field
identifier to value; the `HashMap` is modelled as an association list. -/

/-- The tagged union of runtime values. -/
inductive Val where
  | Unit : Val
  | Bool (b : Bool) : Val
  | I64 (i : Int) : Val
  | I128 (i : Int) : Val
  | Bits (bv : Sbits) : Val
  | Symbolic (v : Nat) : Val
  | String (s : String) : Val
  | Uninitialized (ty : Ty) : Val
  | Struct (fields : List (Nat × Val)) : Val
  | Vector (elems : List Val) : Val
  | List (elems : List Val) : Val
  | Ctor (tag : Nat) (payload : Val) : Val
  | Ref (id : Nat) : Val
  | Poison : Val
deriving Repr

/-! ## Events (isla-smt `Event`, with the exact variant/field shapes matched
in simplify.rs; register accessor atoms are opaque to every function modelled
here, so `Accessor` is left abstract as an identifier). -/

/-- Register accessor atom (opaque to the simplifier). -/
def Accessor := Nat

/-- The solver event log entries.  Note `WriteMem` carries its written value
as a bare symbol (`value: Sym`) while `ReadMem` carries a full `Val`. -/
inductive Event where
  | Smt (d : Def) : Event
  | ReadReg (n : Nat) (acc : List Accessor) (v : Val) : Event
  | WriteReg (n : Nat) (acc : List Accessor) (v : Val) : Event
  | ReadMem (value : Val) (read_kind : Val) (address : Val) (bytes : Nat) : Event
  | WriteMem (value : Nat) (write_kind : Val) (address : Val) (data : Val) (bytes : Nat) : Event
  | Branch (v : Nat) (loc : String) : Event
  | Instr (v : Val) : Event
  | Cycle : Event
  | Sleeping (v : Nat) : Event
  | SleepRequest : Event
  | WakeupRequest : Event

/-! ## Trace renumbering (isla-lib/src/simplify.rs, `renumber_event`) -/

/-- `renumber_exp`: the source applies `exp.modify` with a closure that
rewrites every `Exp::Var(v)` to `Var(v * total + i)`; `modify` visits every
subexpression, so the effect is the recursive map written out here. -/
def renumber_exp (i total : Nat) : SmtExp → SmtExp
  | .Var v => .Var (v * total + i)
  | .Bits bs => .Bits bs
  | .Bits64 bits len => .Bits64 bits len
  | .Bool b => .Bool b
  | .Not e => .Not (renumber_exp i total e)
  | .Bvnot e => .Bvnot (renumber_exp i total e)
  | .Bvneg e => .Bvneg (renumber_exp i total e)
  | .Extract hi lo e => .Extract hi lo (renumber_exp i total e)
  | .ZeroExtend n e => .ZeroExtend n (renumber_exp i total e)
  | .SignExtend n e => .SignExtend n (renumber_exp i total e)
  | .Eq l r => .Eq (renumber_exp i total l) (renumber_exp i total r)
  | .Neq l r => .Neq (renumber_exp i total l) (renumber_exp i total r)
  | .And l r => .And (renumber_exp i total l) (renumber_exp i total r)
  | .Or l r => .Or (renumber_exp i total l) (renumber_exp i total r)
  | .Bvand l r => .Bvand (renumber_exp i total l) (renumber_exp i total r)
  | .Bvor l r => .Bvor (renumber_exp i total l) (renumber_exp i total r)
  | .Bvxor l r => .Bvxor (renumber_exp i total l) (renumber_exp i total r)
  | .Bvnand l r => .Bvnand (renumber_exp i total l) (renumber_exp i total r)
  | .Bvnor l r => .Bvnor (renumber_exp i total l) (renumber_exp i total r)
  | .Bvxnor l r => .Bvxnor (renumber_exp i total l) (renumber_exp i total r)
  | .Bvadd l r => .Bvadd (renumber_exp i total l) (renumber_exp i total r)
  | .Bvsub l r => .Bvsub (renumber_exp i total l) (renumber_exp i total r)
  | .Bvmul l r => .Bvmul (renumber_exp i total l) (renumber_exp i total r)
  | .Bvudiv l r => .Bvudiv (renumber_exp i total l) (renumber_exp i total r)
  | .Bvsdiv l r => .Bvsdiv (renumber_exp i total l) (renumber_exp i total r)
  | .Bvurem l r => .Bvurem (renumber_exp i total l) (renumber_exp i total r)
  | .Bvsrem l r => .Bvsrem (renumber_exp i total l) (renumber_exp i total r)
  | .Bvsmod l r => .Bvsmod (renumber_exp i total l) (renumber_exp i total r)
  | .Bvult l r => .Bvult (renumber_exp i total l) (renumber_exp i total r)
  | .Bvslt l r => .Bvslt (renumber_exp i total l) (renumber_exp i total r)
  | .Bvule l r => .Bvule (renumber_exp i total l) (renumber_exp i total r)
  | .Bvsle l r => .Bvsle (renumber_exp i total l) (renumber_exp i total r)
  | .Bvuge l r => .Bvuge (renumber_exp i total l) (renumber_exp i total r)
  | .Bvsge l r => .Bvsge (renumber_exp i total l) (renumber_exp i total r)
  | .Bvugt l r => .Bvugt (renumber_exp i total l) (renumber_exp i total r)
  | .Bvsgt l r => .Bvsgt (renumber_exp i total l) (renumber_exp i total r)
  | .Bvshl l r => .Bvshl (renumber_exp i total l) (renumber_exp i total r)
  | .Bvlshr l r => .Bvlshr (renumber_exp i total l) (renumber_exp i total r)
  | .Bvashr l r => .Bvashr (renumber_exp i total l) (renumber_exp i total r)
  | .Concat l r => .Concat (renumber_exp i total l) (renumber_exp i total r)
  | .Ite c t e => .Ite (renumber_exp i total c) (renumber_exp i total t) (renumber_exp i total e)

mutual

/-- `renumber_val`: rewrite `Symbolic(v)` to `v * total + i`, recursing into
lists, vectors, structs and constructors. -/
def renumber_val (i total : Nat) : Val → Val
  | .Symbolic v => .Symbolic (v * total + i)
  | .I64 n => .I64 n
  | .I128 n => .I128 n
  | .Bool b => .Bool b
  | .Bits bv => .Bits bv
  | .String s => .String s
  | .Unit => .Unit
  | .Ref r => .Ref r
  | .Poison => .Poison
  | .Uninitialized ty => .Uninitialized ty
  | .List vals => .List (renumber_val_list i total vals)
  | .Vector vals => .Vector (renumber_val_list i total vals)
  | .Struct fields => .Struct (renumber_val_fields i total fields)
  | .Ctor c val => .Ctor c (renumber_val i total val)

/-- Helper for `renumber_val` on `Vec<Val>` (`vals.iter_mut().for_each`). -/
def renumber_val_list (i total : Nat) : List Val → List Val
  | [] => []
  | v :: vs => renumber_val i total v :: renumber_val_list i total vs

/-- Helper for `renumber_val` on struct fields (`fields.iter_mut()`). -/
def renumber_val_fields (i total : Nat) : List (Nat × Val) → List (Nat × Val)
  | [] => []
  | (f, v) :: fs => (f, renumber_val i total v) :: renumber_val_fields i total fs

end

/-- `renumber_def`. -/
def renumber_def (i total : Nat) : Def → Def
  | .DeclareConst v ty => .DeclareConst (v * total + i) ty
  | .DefineConst v exp => .DefineConst (v * total + i) (renumber_exp i total exp)
  | .Assert exp => .Assert (renumber_exp i total exp)

/-- `renumber_event` (isla-lib/src/simplify.rs).  The source carries
`assert!(i < total)`; that precondition appears as a hypothesis of the
theorems below. -/
def renumber_event (i total : Nat) : Event → Event
  | .Smt d => .Smt (renumber_def i total d)
  | .Branch v loc => .Branch (v * total + i) loc
  | .Sleeping v => .Sleeping (v * total + i)
  | .ReadReg n acc value => .ReadReg n acc (renumber_val i total value)
  | .WriteReg n acc value => .WriteReg n acc (renumber_val i total value)
  | .Instr value => .Instr (renumber_val i total value)
  | .ReadMem value read_kind address bytes =>
      .ReadMem (renumber_val i total value) (renumber_val i total read_kind)
        (renumber_val i total address) bytes
  | .WriteMem v write_kind address data bytes =>
      .WriteMem (v * total + i) (renumber_val i total write_kind)
        (renumber_val i total address) (renumber_val i total data) bytes
  | .Cycle => .Cycle
  | .SleepRequest => .SleepRequest
  | .WakeupRequest => .WakeupRequest

/-! ## Symbol sets of events (observation functions used to state the
renumbering claims: the list of symbolic-variable occurrences of an
expression, value, definition or event, in traversal order). -/

/-- All symbolic variables occurring in an SMT expression. -/
def exp_syms : SmtExp → List Nat
  | .Var v => [v]
  | .Bits _ => []
  | .Bits64 _ _ => []
  | .Bool _ => []
  | .Not e => exp_syms e
  | .Bvnot e => exp_syms e
  | .Bvneg e => exp_syms e
  | .Extract _ _ e => exp_syms e
  | .ZeroExtend _ e => exp_syms e
  | .SignExtend _ e => exp_syms e
  | .Eq l r => exp_syms l ++ exp_syms r
  | .Neq l r => exp_syms l ++ exp_syms r
  | .And l r => exp_syms l ++ exp_syms r
  | .Or l r => exp_syms l ++ exp_syms r
  | .Bvand l r => exp_syms l ++ exp_syms r
  | .Bvor l r => exp_syms l ++ exp_syms r
  | .Bvxor l r => exp_syms l ++ exp_syms r
  | .Bvnand l r => exp_syms l ++ exp_syms r
  | .Bvnor l r => exp_syms l ++ exp_syms r
  | .Bvxnor l r => exp_syms l ++ exp_syms r
  | .Bvadd l r => exp_syms l ++ exp_syms r
  | .Bvsub l r => exp_syms l ++ exp_syms r
  | .Bvmul l r => exp_syms l ++ exp_syms r
  | .Bvudiv l r => exp_syms l ++ exp_syms r
  | .Bvsdiv l r => exp_syms l ++ exp_syms r
  | .Bvurem l r => exp_syms l ++ exp_syms r
  | .Bvsrem l r => exp_syms l ++ exp_syms r
  | .Bvsmod l r => exp_syms l ++ exp_syms r
  | .Bvult l r => exp_syms l ++ exp_syms r
  | .Bvslt l r => exp_syms l ++ exp_syms r
  | .Bvule l r => exp_syms l ++ exp_syms r
  | .Bvsle l r => exp_syms l ++ exp_syms r
  | .Bvuge l r => exp_syms l ++ exp_syms r
  | .Bvsge l r => exp_syms l ++ exp_syms r
  | .Bvugt l r => exp_syms l ++ exp_syms r
  | .Bvsgt l r => exp_syms l ++ exp_syms r
  | .Bvshl l r => exp_syms l ++ exp_syms r
  | .Bvlshr l r => exp_syms l ++ exp_syms r
  | .Bvashr l r => exp_syms l ++ exp_syms r
  | .Concat l r => exp_syms l ++ exp_syms r
  | .Ite c t e => exp_syms c ++ exp_syms t ++ exp_syms e

mutual

/-- All symbolic variables occurring in a value. -/
def val_syms : Val → List Nat
  | .Symbolic v => [v]
  | .I64 _ => []
  | .I128 _ => []
  | .Bool _ => []
  | .Bits _ => []
  | .String _ => []
  | .Unit => []
  | .Ref _ => []
  | .Poison => []
  | .Uninitialized _ => []
  | .List vals => val_list_syms vals
  | .Vector vals => val_list_syms vals
  | .Struct fields => val_fields_syms fields
  | .Ctor _ val => val_syms val

/-- Symbolic variables of a list of values. -/
def val_list_syms : List Val → List Nat
  | [] => []
  | v :: vs => val_syms v ++ val_list_syms vs

/-- Symbolic variables of struct fields. -/
def val_fields_syms : List (Nat × Val) → List Nat
  | [] => []
  | (_, v) :: fs => val_syms v ++ val_fields_syms fs

end

/-- All symbolic variables occurring in an SMT definition, the bound name
included. -/
def def_syms : Def → List Nat
  | .DeclareConst v _ => [v]
  | .DefineConst v exp => v :: exp_syms exp
  | .Assert exp => exp_syms exp

/-- All symbolic variables occurring anywhere in an event. -/
def event_syms : Event → List Nat
  | .Smt d => def_syms d
  | .Branch v _ => [v]
  | .Sleeping v => [v]
  | .ReadReg _ _ value => val_syms value
  | .WriteReg _ _ value => val_syms value
  | .Instr value => val_syms value
  | .ReadMem value read_kind address _ =>
      val_syms value ++ val_syms read_kind ++ val_syms address
  | .WriteMem v write_kind address data _ =>
      v :: (val_syms write_kind ++ val_syms address ++ val_syms data)
  | .Cycle => []
  | .SleepRequest => []
  | .WakeupRequest => []

/-! ## Dead-symbol elimination (isla-lib/src/simplify.rs, `remove_unused`)

The Rust `HashMap<u32, u32>` of use counts is modelled as a total function
`Nat → Nat` defaulting to zero; `uses.insert(v, uses.get(&v).unwrap_or(&0) + 1)`
becomes `bump_use`, and `uses.contains_key(v)` becomes `uses v ≠ 0`, which
coincides with key membership because entries are only ever created with a
strictly positive count. -/

/-- Use-count map. -/
def Uses := Nat → Nat

/-- The empty use-count map. -/
def no_uses : Uses := fun _ => 0

/-- Count one more use of `v`. -/
def bump_use (uses : Uses) (v : Nat) : Uses :=
  fun x => if x = v then uses v + 1 else uses x

/-- `uses_in_exp`: count the occurrences of each variable in an SMTLIB
expression (the `&mut uses` accumulator is threaded explicitly). -/
def uses_in_exp (uses : Uses) : SmtExp → Uses
  | .Var v => bump_use uses v
  | .Bits _ => uses
  | .Bits64 _ _ => uses
  | .Bool _ => uses
  | .Not e => uses_in_exp uses e
  | .Bvnot e => uses_in_exp uses e
  | .Bvneg e => uses_in_exp uses e
  | .Extract _ _ e => uses_in_exp uses e
  | .ZeroExtend _ e => uses_in_exp uses e
  | .SignExtend _ e => uses_in_exp uses e
  | .Eq l r => uses_in_exp (uses_in_exp uses l) r
  | .Neq l r => uses_in_exp (uses_in_exp uses l) r
  | .And l r => uses_in_exp (uses_in_exp uses l) r
  | .Or l r => uses_in_exp (uses_in_exp uses l) r
  | .Bvand l r => uses_in_exp (uses_in_exp uses l) r
  | .Bvor l r => uses_in_exp (uses_in_exp uses l) r
  | .Bvxor l r => uses_in_exp (uses_in_exp uses l) r
  | .Bvnand l r => uses_in_exp (uses_in_exp uses l) r
  | .Bvnor l r => uses_in_exp (uses_in_exp uses l) r
  | .Bvxnor l r => uses_in_exp (uses_in_exp uses l) r
  | .Bvadd l r => uses_in_exp (uses_in_exp uses l) r
  | .Bvsub l r => uses_in_exp (uses_in_exp uses l) r
  | .Bvmul l r => uses_in_exp (uses_in_exp uses l) r
  | .Bvudiv l r => uses_in_exp (uses_in_exp uses l) r
  | .Bvsdiv l r => uses_in_exp (uses_in_exp uses l) r
  | .Bvurem l r => uses_in_exp (uses_in_exp uses l) r
  | .Bvsrem l r => uses_in_exp (uses_in_exp uses l) r
  | .Bvsmod l r => uses_in_exp (uses_in_exp uses l) r
  | .Bvult l r => uses_in_exp (uses_in_exp uses l) r
  | .Bvslt l r => uses_in_exp (uses_in_exp uses l) r
  | .Bvule l r => uses_in_exp (uses_in_exp uses l) r
  | .Bvsle l r => uses_in_exp (uses_in_exp uses l) r
  | .Bvuge l r => uses_in_exp (uses_in_exp uses l) r
  | .Bvsge l r => uses_in_exp (uses_in_exp uses l) r
  | .Bvugt l r => uses_in_exp (uses_in_exp uses l) r
  | .Bvsgt l r => uses_in_exp (uses_in_exp uses l) r
  | .Bvshl l r => uses_in_exp (uses_in_exp uses l) r
  | .Bvlshr l r => uses_in_exp (uses_in_exp uses l) r
  | .Bvashr l r => uses_in_exp (uses_in_exp uses l) r
  | .Concat l r => uses_in_exp (uses_in_exp uses l) r
  | .Ite c t e => uses_in_exp (uses_in_exp (uses_in_exp uses c) t) e

mutual

/-- `uses_in_value`. -/
def uses_in_value (uses : Uses) : Val → Uses
  | .Symbolic v => bump_use uses v
  | .I64 _ => uses
  | .I128 _ => uses
  | .Bool _ => uses
  | .Bits _ => uses
  | .String _ => uses
  | .Unit => uses
  | .Ref _ => uses
  | .Poison => uses
  | .Uninitialized _ => uses
  | .List vals => uses_in_value_list uses vals
  | .Vector vals => uses_in_value_list uses vals
  | .Struct fields => uses_in_value_fields uses fields
  | .Ctor _ val => uses_in_value uses val

/-- `uses_in_value` over `Vec<Val>`. -/
def uses_in_value_list (uses : Uses) : List Val → Uses
  | [] => uses
  | v :: vs => uses_in_value_list (uses_in_value uses v) vs

/-- `uses_in_value` over struct fields. -/
def uses_in_value_fields (uses : Uses) : List (Nat × Val) → Uses
  | [] => uses
  | (_, v) :: fs => uses_in_value_fields (uses_in_value uses v) fs

end

/-- One event's contribution to the use-count accumulation of
`remove_unused_pass`.  Note that a `DeclareConst` body, a `ReadMem` value and
a `WriteMem` value symbol are deliberately not counted as uses. -/
def event_uses (uses : Uses) : Event → Uses
  | .Smt (.DeclareConst _ _) => uses
  | .Smt (.DefineConst _ exp) => uses_in_exp uses exp
  | .Smt (.Assert exp) => uses_in_exp uses exp
  | .ReadReg _ _ val => uses_in_value uses val
  | .WriteReg _ _ val => uses_in_value uses val
  | .ReadMem _ read_kind address _ =>
      uses_in_value (uses_in_value uses read_kind) address
  | .WriteMem _ write_kind address data _ =>
      uses_in_value (uses_in_value (uses_in_value uses write_kind) address) data
  | .Branch v _ => bump_use uses v
  | .Cycle => uses
  | .Instr val => uses_in_value uses val
  | .Sleeping v => bump_use uses v
  | .WakeupRequest => uses
  | .SleepRequest => uses

/-- Whether `remove_unused_pass` retains an event: everything except a
`DeclareConst` or `DefineConst` whose bound symbol has no recorded use. -/
def keep_event (uses : Uses) : Event → Bool
  | .Smt (.DeclareConst v _) => uses v != 0
  | .Smt (.DefineConst v _) => uses v != 0
  | _ => true

/-- `remove_unused_pass`: accumulate uses over the events in reverse order,
then retain the events `keep_event` accepts, returning the retained list
together with the number of removed events. -/
def remove_unused_pass (events : List Event) : List Event × Nat :=
  let uses : Uses := events.reverse.foldl event_uses no_uses
  (events.filter (keep_event uses),
   (events.filter (fun e => ! keep_event uses e)).length)

/-- `remove_unused`: iterate `remove_unused_pass` until a pass removes
nothing. -/
def remove_unused (events : List Event) : List Event :=
  if h : 0 < (remove_unused_pass events).2 then remove_unused (remove_unused_pass events).1
  else (remove_unused_pass events).1
termination_by events.length
decreasing_by
  have hlen := List.length_eq_length_filter_add
    (l := events) (keep_event (events.reverse.foldl event_uses no_uses))
  simp only [remove_unused_pass] at h ⊢
  omega

/-! ## Distinguished identifiers

Modelled from the spec: `RETURN` names the function return slot and
`HAVE_EXCEPTION` the distinguished global boolean; they are fixed interned
32-bit identifiers whose concrete numbering is internal to the symbol table,
so two distinct constants stand for them here. -/

/-- The distinguished `RETURN` identifier. -/
def RETURN : Nat := 0

/-- The distinguished `HAVE_EXCEPTION` identifier. -/
def HAVE_EXCEPTION : Nat := 1

/-! ## Trace textual output (isla-lib/src/simplify.rs, `write_events_with_opts`
at `types = false`, which is the `write_events` entry point)

Rendering of individual SMT definitions, values and accessor atoms is done by
`Display` implementations living in the external solver binding; they enter
the model as the function parameters collected in `EventRenderers`.  The
mutable output buffer becomes a `String` accumulator. -/

/-- The externally-supplied renderers used by the trace writer. -/
structure EventRenderers where
  defStr : Def → String
  valStr : Val → String
  accElemStr : Accessor → String
  regStr : Nat → String

/-- `accessor_to_string`: `(a b c)` or `nil` when the accessor list is
empty. -/
def accessor_to_string (elemStr : Accessor → String) : List Accessor → String
  | [] => "nil"
  | a :: rest =>
      "(" ++ rest.foldl (fun pre elem => pre ++ " " ++ elemStr elem) (elemStr a) ++ ")"

/-- The text one event contributes inside the `(trace ...)` form: a newline
and two spaces of indentation followed by the event's S-expression — except
that a `ReadReg` of `HAVE_EXCEPTION` writes nothing at all. -/
def event_line (r : EventRenderers) : Event → String
  | .Branch n loc => "\n  (branch " ++ toString n ++ " \"" ++ loc ++ "\")"
  | .Smt d => "\n  " ++ r.defStr d
  | .ReadMem value read_kind address bytes =>
      "\n  (read-mem " ++ r.valStr value ++ " " ++ r.valStr read_kind ++ " "
        ++ r.valStr address ++ " " ++ toString bytes ++ ")"
  | .WriteMem value write_kind address data bytes =>
      "\n  (write-mem v" ++ toString value ++ " " ++ r.valStr write_kind ++ " "
        ++ r.valStr address ++ " " ++ r.valStr data ++ " " ++ toString bytes ++ ")"
  | .WriteReg n acc v =>
      "\n  (write-reg |" ++ r.regStr n ++ "| " ++ accessor_to_string r.accElemStr acc
        ++ " " ++ r.valStr v ++ ")"
  | .ReadReg n acc v =>
      if n = HAVE_EXCEPTION then ""
      else
        "\n  (read-reg |" ++ r.regStr n ++ "| " ++ accessor_to_string r.accElemStr acc
          ++ " " ++ r.valStr v ++ ")"
  | .Cycle => "\n  (cycle)"
  | .Instr value => "\n  (instr " ++ r.valStr value ++ ")"
  | .Sleeping value => "\n  (sleeping v" ++ toString value ++ ")"
  | .SleepRequest => "\n  (sleep-request)"
  | .WakeupRequest => "\n  (wake-request)"

/-- `write_events`: open with `(trace`, append every event's text walking the
collection in reverse order, and close with `)` plus the final newline that
`writeln!` emits. -/
def write_events (r : EventRenderers) (events : List Event) : String :=
  (events.reverse.foldl (fun buf event => buf ++ event_line r event) "(trace") ++ ")\n"

/-! ## The solver binding (isla-smt, outside src/)

Modelled from the spec: `Solver` exposes `fresh() → Sym` (a counter of
declared symbols), `add(Def)` (recorded in order, emitted on the trace),
`check_sat_with(Exp)` (observation-only satisfiability of the current
assertions plus one extra expression — supplied to the interpreter as an
oracle parameter), and `checkpoint_with(Def) → Checkpoint` (a snapshot of
the assertion stack with one definition pending). -/

/-- Solver state: the fresh-symbol counter and the definitions added so
far. -/
structure Solver where
  count : Nat
  defs : List Def

/-- `Solver::fresh`. -/
def Solver.fresh (s : Solver) : Nat × Solver :=
  (s.count, { s with count := s.count + 1 })

/-- `Solver::add`. -/
def Solver.add (s : Solver) (d : Def) : Solver :=
  { s with defs := s.defs ++ [d] }

/-- A checkpoint: the snapshot a fresh context can be restored from. -/
def Checkpoint := Solver

/-- `Solver::checkpoint_with`: snapshot the solver with `d` pending. -/
def Solver.checkpoint_with (s : Solver) (d : Def) : Checkpoint :=
  { s with defs := s.defs ++ [d] }

/-- The satisfiability oracle standing for `check_sat_with(exp).is_sat()`:
a function of the currently added definitions and the queried expression. -/
def SatOracle := List Def → SmtExp → Bool

/-! ## Shared state (read-only type/function tables; `HashMap`s become
association lists).  Only the tables the embedded functions read are
carried. -/

/-- The read-only shared state consulted by `symbolic` and the lookup
chain. -/
structure SharedState where
  structs : List (Nat × List (Nat × Ty))
  enums : List (Nat × List Nat)
  enum_members : List (Nat × Nat)

/-- `primop::smt_u8` (external primop catalogue).  Modelled from the spec:
the enum-cardinality bound is an 8-bit bitvector literal (`enum_size as u8`
truncates). -/
def smt_u8 (n : Nat) : SmtExp := .Bits64 (n % 2 ^ 8) 8

/-- The common tail of `symbolic` for the scalar types: declare one fresh
constant of the given sort and return `Symbolic` of it. -/
def declare_fresh (solver : Solver) (smt_ty : SmtTy) : Val × Solver :=
  let (sym, s1) := solver.fresh
  (.Symbolic sym, s1.add (.DeclareConst sym smt_ty))

mutual

/-- `symbolic` (isla-lib/src/executor.rs).  The `fuel` argument bounds the
struct-field recursion, which in the source is bounded only by the
well-foundedness of the (externally supplied) struct table: exhausting the
fuel models the stack overflow an unproductive cyclic struct table would
cause, as `Error.Fatal`. -/
def symbolic (fuel : Nat) (ty : Ty) (shared_state : SharedState) (solver : Solver) :
    Except Error (Val × Solver) :=
  match fuel with
  | 0 => .error (.Fatal "unbounded struct recursion")
  | fuel + 1 =>
    match ty with
    | .Unit => .ok (.Unit, solver)
    | .Bits 0 => .ok (.Bits (Sbits.new 0 0), solver)
    | .I64 => .ok (declare_fresh solver (.BitVec 64))
    | .I128 => .ok (declare_fresh solver (.BitVec 128))
    | .Bits (sz + 1) => .ok (declare_fresh solver (.BitVec (sz + 1)))
    | .Bool => .ok (declare_fresh solver .Bool)
    | .Bit => .ok (declare_fresh solver (.BitVec 1))
    | .Struct name =>
      match List.lookup name shared_state.structs with
      | some field_types =>
        match symbolic_fields fuel field_types shared_state solver with
        | .ok (field_values, s1) => .ok (.Struct field_values, s1)
        | .error e => .error e
      | none => .error (.Unreachable "Struct does not appear to exist!")
    | .Enum name =>
      match List.lookup name shared_state.enums with
      | some members =>
        let enum_size := members.length
        let (sym, s1) := solver.fresh
        let s2 := s1.add (.DeclareConst sym (.BitVec 8))
        let s3 := s2.add (.Assert (.Bvult (.Var sym) (smt_u8 enum_size)))
        .ok (.Symbolic sym, s3)
      | none => .error (.Fatal "enums.get(name).unwrap() panicked")
    | .Vector _ => .error .NoSymbolicType

/-- The struct-field traversal of `symbolic`: `field_types.iter().map(...)`
threading the solver left to right and short-circuiting on the first
error. -/
def symbolic_fields (fuel : Nat) (field_types : List (Nat × Ty))
    (shared_state : SharedState) (solver : Solver) :
    Except Error (List (Nat × Val) × Solver) :=
  match field_types with
  | [] => .ok ([], solver)
  | (f, ty) :: rest =>
    match symbolic fuel ty shared_state solver with
    | .ok (value, s1) =>
      match symbolic_fields fuel rest shared_state s1 with
      | .ok (values, s2) => .ok ((f, value) :: values, s2)
      | .error e => .error e
    | .error e => .error e

end

/-! ## Variable environments (`HashMap<u32, Val>` as a total function to
`Option Val`). -/

/-- A local- or global-variable environment. -/
def VarMap := Nat → Option Val

/-- The empty environment. -/
def vmap_empty : VarMap := fun _ => none

/-- `HashMap::insert`. -/
def vmap_insert (vars : VarMap) (v : Nat) (value : Val) : VarMap :=
  fun x => if x = v then some value else vars x

/-- The source's get_and_initialize (isla-lib/src/executor.rs; shortened
name): return the current value; if the slot holds `Uninitialized(ty)`,
materialise a fresh symbolic of `ty`, write it back into the same slot and
return it; missing keys give `none`. -/
def get_and_init (fuel : Nat) (v : Nat) (vars : VarMap)
    (shared_state : SharedState) (solver : Solver) :
    Except Error (Option Val × VarMap × Solver) :=
  match vars v with
  | some (.Uninitialized ty) =>
    match symbolic fuel ty shared_state solver with
    | .ok (sym, s1) => .ok (some sym, vmap_insert vars v sym, s1)
    | .error e => .error e
  | some value => .ok (some value, vars, solver)
  | none => .ok (none, vars, solver)

/-! ## IR expressions and locations (isla-lib `Exp<u32>` / `Loc<u32>`,
reconstructed from the executor's use sites: the expression variants the
evaluator handles are listed below; the remaining variants of the full IR
fall into `eval_exp`'s final panicking catch-all and are not represented.
Of the primitive opcodes dispatched in the `Call` case, only
`Op::Unsigned(len)` is handled inside the executor itself (the rest route
into the external primop catalogue); `Op.Other` stands for the opcodes the
`_` arm rejects with `Unimplemented`. -/

/-- Primitive opcodes as dispatched by `eval_exp`. -/
inductive Op where
  | Unsigned (len : Nat) : Op
  | Other : Op

/-- IR expressions. -/
inductive IExp where
  | Id (v : Nat) : IExp
  | I64 (i : Int) : IExp
  | I128 (i : Int) : IExp
  | Unit : IExp
  | Bool (b : Bool) : IExp
  | Bits (bv : Sbits) : IExp
  | String (s : String) : IExp
  | Undefined (ty : Ty) : IExp
  | Call (op : Op) (args : List IExp) : IExp
  | Field (e : IExp) (field : Nat) : IExp

/-- IR locations (`Loc::Id` and `Loc::Field` are the variants the executor
handles; anything else panics). -/
inductive Loc where
  | Id (id : Nat) : Loc
  | Field (loc : Loc) (field : Nat) : Loc

/-- The source's get_loc_and_initialize (shortened name): only `Loc::Id` is
implemented — locals, then globals, then enum-member constants; unresolved
identifiers and non-`Id` locations panic. -/
def get_loc_and_init (fuel : Nat) (loc : Loc) (vars globals : VarMap)
    (shared_state : SharedState) (solver : Solver) :
    Except Error (Option Val × VarMap × VarMap × Solver) :=
  match loc with
  | .Id id =>
    match get_and_init fuel id vars shared_state solver with
    | .error e => .error e
    | .ok (some value, vars1, s1) => .ok (some value, vars1, globals, s1)
    | .ok (none, vars1, s1) =>
      match get_and_init fuel id globals shared_state s1 with
      | .error e => .error e
      | .ok (some value, globals1, s2) => .ok (some value, vars1, globals1, s2)
      | .ok (none, globals1, s2) =>
        match List.lookup id shared_state.enum_members with
        | some position => .ok (some (.Bits (Sbits.from_u8 position)), vars1, globals1, s2)
        | none => .error (.Fatal "Symbol not found")
  | .Field _ _ => .error (.Fatal "Cannot get_loc")

mutual

/-- `eval_exp` (isla-lib/src/executor.rs).  The `&mut` environments and
solver are threaded through the result tuple. -/
def eval_exp (fuel : Nat) (exp : IExp) (vars globals : VarMap)
    (shared_state : SharedState) (solver : Solver) :
    Except Error (Val × VarMap × VarMap × Solver) :=
  match exp with
  | .Id v =>
    match get_and_init fuel v vars shared_state solver with
    | .error e => .error e
    | .ok (some value, vars1, s1) => .ok (value, vars1, globals, s1)
    | .ok (none, vars1, s1) =>
      match get_and_init fuel v globals shared_state s1 with
      | .error e => .error e
      | .ok (some value, globals1, s2) => .ok (value, vars1, globals1, s2)
      | .ok (none, globals1, s2) =>
        match List.lookup v shared_state.enum_members with
        | some position => .ok (.Bits (Sbits.from_u8 position), vars1, globals1, s2)
        | none => .error (.Fatal "Symbol not found")
  | .I64 i => .ok (.I64 i, vars, globals, solver)
  | .I128 i => .ok (.I128 i, vars, globals, solver)
  | .Unit => .ok (.Unit, vars, globals, solver)
  | .Bool b => .ok (.Bool b, vars, globals, solver)
  | .Bits bv => .ok (.Bits bv, vars, globals, solver)
  | .String s => .ok (.String s, vars, globals, solver)
  | .Undefined ty =>
    match symbolic fuel ty shared_state solver with
    | .ok (value, s1) => .ok (value, vars, globals, s1)
    | .error e => .error e
  | .Call op args =>
    match eval_exp_args fuel args vars globals shared_state solver with
    | .error e => .error e
    | .ok (_vals, vars1, globals1, s1) =>
      match op with
      | .Unsigned len =>
        match symbolic fuel (.Bits len) shared_state s1 with
        | .ok (value, s2) => .ok (value, vars1, globals1, s2)
        | .error e => .error e
      | .Other => .error .Unimplemented
  | .Field e field =>
    match eval_exp fuel e vars globals shared_state solver with
    | .error err => .error err
    | .ok (.Struct struct_value, vars1, globals1, s1) =>
      match List.lookup field struct_value with
      | some field_value => .ok (field_value, vars1, globals1, s1)
      | none => .error (.Fatal "No field")
    | .ok _ => .error (.Fatal "Struct expression did not evaluate to a struct")

/-- Left-to-right evaluation of a `Call`'s argument list
(`args.iter().map(...).collect()`). -/
def eval_exp_args (fuel : Nat) (args : List IExp) (vars globals : VarMap)
    (shared_state : SharedState) (solver : Solver) :
    Except Error (List Val × VarMap × VarMap × Solver) :=
  match args with
  | [] => .ok ([], vars, globals, solver)
  | arg :: rest =>
    match eval_exp fuel arg vars globals shared_state solver with
    | .error e => .error e
    | .ok (value, vars1, globals1, s1) =>
      match eval_exp_args fuel rest vars1 globals1 shared_state s1 with
      | .error e => .error e
      | .ok (values, vars2, globals2, s2) => .ok (value :: values, vars2, globals2, s2)

end

/-- `HashMap::insert` on a struct's field map (association-list form):
replace the binding if the key is present, append it otherwise. -/
def fields_insert : List (Nat × Val) → Nat → Val → List (Nat × Val)
  | [], k, value => [(k, value)]
  | (k0, v0) :: fs, k, value =>
    if k0 = k then (k, value) :: fs else (k0, v0) :: fields_insert fs k value

/-- `assign` (isla-lib/src/executor.rs): `Loc::Id` writes locally when the
slot exists or is `RETURN`, globally otherwise; `Loc::Field` requires the
addressed slot to hold a struct that already has the field, clones it,
updates the field and re-assigns by recursion; shape mismatches panic. -/
def assign (fuel : Nat) (loc : Loc) (value : Val) (vars globals : VarMap)
    (shared_state : SharedState) (solver : Solver) :
    Except Error (VarMap × VarMap × Solver) :=
  match loc with
  | .Id id =>
    if (vars id).isSome || id = RETURN then
      .ok (vmap_insert vars id value, globals, solver)
    else
      .ok (vars, vmap_insert globals id value, solver)
  | .Field loc field =>
    match get_loc_and_init fuel loc vars globals shared_state solver with
    | .ok (some (.Struct field_values), vars1, globals1, s1) =>
      match List.lookup field field_values with
      | some _ =>
        assign fuel loc (.Struct (fields_insert field_values field value))
          vars1 globals1 shared_state s1
      | none => .error (.Fatal "Invalid field assignment")
    | .ok _ => .error (.Fatal "Cannot assign struct to non-struct")
    | .error e => .error e

/-! ## The instruction interpreter (isla-lib/src/executor.rs, `run`)

The callstack is a closure in the source (`Stack<'ast>`); closures over
frames cannot be embedded first-order, so frames carry an opaque
continuation of type `σ` and the interpreter receives an application oracle
for it.  `Instr::Call` and the primop instruction forms construct closures
and dispatch function-pointer primops, so they stay outside the embedding;
the instruction variants below are the ones the modelled step covers, with
`Other` standing for the wildcard arm that just advances `pc`. -/

/-- IR instructions (shared shape between isla-lib and the prototype). -/
inductive Instr where
  | Decl (v : Nat) (ty : Ty) : Instr
  | Init (v : Nat) (ty : Ty) (exp : IExp) : Instr
  | Jump (exp : IExp) (target : Nat) : Instr
  | Goto (target : Nat) : Instr
  | Copy (loc : Loc) (exp : IExp) : Instr
  | End : Instr
  | Other : Instr

/-- An execution frame (`Frame`/`LocalFrame`: the frozen form holds the same
data behind `Arc`s, so freezing and thawing are data-identities here).  `σ`
is the opaque return-continuation type. -/
structure Frame (σ : Type) where
  pc : Nat
  backjumps : Nat
  vars : VarMap
  globals : VarMap
  instrs : List Instr
  stack : Option σ

/-- The application oracle for the opaque return continuation: invoking the
caller-restoration closure mutates the frame and may touch the solver. -/
def StackApp (σ : Type) :=
  σ → Val → Frame σ → Solver → Except Error (Frame σ × Solver)

/-- Outcome of one iteration of `run`'s loop: continue with an updated
frame/solver having pushed zero or more forked tasks, finish with a value,
or fail. -/
inductive StepResult (σ : Type) where
  | Continue (frame : Frame σ) (solver : Solver) (pushed : List (Frame σ × Checkpoint)) :
      StepResult σ
  | Done (value : Val) (frame : Frame σ) (solver : Solver) : StepResult σ
  | Failed (e : Error) : StepResult σ

/-- One iteration of the `loop` in `run` (isla-lib/src/executor.rs):
the `pc ≥ instrs.len()` success check followed by the instruction match.
`sat` is the `check_sat_with` oracle and `app` the continuation oracle. -/
def exec_step {σ : Type} (fuel : Nat) (sat : SatOracle) (app : StackApp σ)
    (shared_state : SharedState) (frame : Frame σ) (solver : Solver) : StepResult σ :=
  match frame.instrs[frame.pc]? with
  | none => .Done .Unit frame solver
  | some instr =>
    match instr with
    | .Decl v ty =>
      .Continue { frame with vars := vmap_insert frame.vars v (.Uninitialized ty),
                             pc := frame.pc + 1 } solver []
    | .Init var _ exp =>
      match eval_exp fuel exp frame.vars frame.globals shared_state solver with
      | .error e => .Failed e
      | .ok (value, vars1, globals1, s1) =>
        .Continue { frame with vars := vmap_insert vars1 var value, globals := globals1,
                               pc := frame.pc + 1 } s1 []
    | .Jump exp target =>
      match eval_exp fuel exp frame.vars frame.globals shared_state solver with
      | .error e => .Failed e
      | .ok (value, vars1, globals1, s1) =>
        match value with
        | .Symbolic v =>
          let test_true := SmtExp.Var v
          let test_false := SmtExp.Not (SmtExp.Var v)
          let can_be_true := sat s1.defs test_true
          let can_be_false := sat s1.defs test_false
          if can_be_true && can_be_false then
            let point := s1.checkpoint_with (.Assert test_false)
            let frozen : Frame σ :=
              { frame with pc := frame.pc + 1, vars := vars1, globals := globals1 }
            .Continue { frame with pc := target, vars := vars1, globals := globals1 }
              (s1.add (.Assert test_true)) [(frozen, point)]
          else if can_be_true then
            .Continue { frame with pc := target, vars := vars1, globals := globals1 }
              (s1.add (.Assert test_true)) []
          else if can_be_false then
            .Continue { frame with pc := frame.pc + 1, vars := vars1, globals := globals1 }
              (s1.add (.Assert test_false)) []
          else
            .Failed .Dead
        | .Bool jump =>
          if jump then
            .Continue { frame with pc := target, vars := vars1, globals := globals1 } s1 []
          else
            .Continue { frame with pc := frame.pc + 1, vars := vars1, globals := globals1 } s1 []
        | _ => .Failed (.TypeErr "Jump on non boolean")
    | .Goto target => .Continue { frame with pc := target } solver []
    | .Copy loc exp =>
      match eval_exp fuel exp frame.vars frame.globals shared_state solver with
      | .error e => .Failed e
      | .ok (value, vars1, globals1, s1) =>
        match assign fuel loc value vars1 globals1 shared_state s1 with
        | .error e => .Failed e
        | .ok (vars2, globals2, s2) =>
          .Continue { frame with vars := vars2, globals := globals2,
                                 pc := frame.pc + 1 } s2 []
    | .End =>
      match frame.vars RETURN with
      | none => .Failed (.Fatal "Reached end without assigning to return")
      | some value =>
        match frame.stack with
        | none => .Done value frame solver
        | some caller =>
          match app caller value frame solver with
          | .ok (frame1, s1) => .Continue frame1 s1 []
          | .error e => .Failed e
    | .Other => .Continue { frame with pc := frame.pc + 1 } solver []

/-- Outcome of the whole `run` loop, with the tasks pushed onto the worker's
queue accumulated; `OutOfFuel` is the model's marker for a loop iteration
budget exhausted without the source's loop terminating. -/
inductive RunResult (σ : Type) where
  | Ok (value : Val) (frame : Frame σ) (solver : Solver)
      (pushed : List (Frame σ × Checkpoint)) : RunResult σ
  | Fail (e : Error) : RunResult σ
  | OutOfFuel : RunResult σ

/-- The `run` loop of isla-lib/src/executor.rs, iterating `exec_step` at
most `loop_fuel` times.  Note that `backjumps` is never consulted or
updated: the library interpreter carries the counter but the budget logic
exists only in the prototype (`proto_run` below). -/
def exec_run {σ : Type} (loop_fuel : Nat) (fuel : Nat) (sat : SatOracle) (app : StackApp σ)
    (shared_state : SharedState) (frame : Frame σ) (solver : Solver)
    (pushed : List (Frame σ × Checkpoint)) : RunResult σ :=
  match loop_fuel with
  | 0 => .OutOfFuel
  | loop_fuel + 1 =>
    match exec_step fuel sat app shared_state frame solver with
    | .Continue frame1 s1 newly =>
      exec_run loop_fuel fuel sat app shared_state frame1 s1 (pushed ++ newly)
    | .Done value frame1 s1 => .Ok value frame1 s1 pushed
    | .Failed e => .Fail e

/-! ## The prototype interpreter (src/main.rs)

The prototype's frames carry variables as plain strings and an SMT script as
a list of strings; its callstack is a plain function pointer
`fn(Var, Vec<String>) -> Frame`, representable here directly because it
captures nothing. -/

/-- The prototype's frozen `Frame`.  An inductive rather than a structure
because the stack's function pointer returns another frozen frame. -/
inductive PFrame : Type where
  | mk (pc : Nat) (backjumps : Nat) (vars : List String) (instrs : List Instr)
      (stack : Option (String × List String → PFrame)) : PFrame

/-- The prototype's `LocalFrame`, the working copy with the `smt` script. -/
structure PLocalFrame : Type where
  pc : Nat
  backjumps : Nat
  vars : List String
  instrs : List Instr
  stack : Option (String × List String → PFrame)
  smt : List String

/-- The prototype's `unfreeze_frame` (fresh empty `smt`). -/
def p_unfreeze_frame : PFrame → PLocalFrame
  | .mk pc backjumps vars instrs stack =>
    { pc := pc, backjumps := backjumps, vars := vars, instrs := instrs,
      stack := stack, smt := [] }

/-- `MAX_BACKJUMPS` (src/main.rs). -/
def MAX_BACKJUMPS : Nat := 20

/-- Outcome of the prototype's `run`: `Ok(frame.smt)`, the
`Err("Too many backwards jumps")` string, a panic (out-of-bounds indexing
or an empty `vars` at `End`), or the model's marker for exhausting the loop
budget without the source loop terminating. -/
inductive PRunResult where
  | Ok (smt : List String) : PRunResult
  | Err (msg : String) : PRunResult
  | Panicked (msg : String) : PRunResult
  | OutOfFuel : PRunResult

/-- The prototype `run` loop body (src/main.rs), iterated at most
`loop_fuel` times.  Each iteration first enforces the backward-jump budget,
then matches the instruction: only `Goto` (counting backward jumps) and
`End` change any state — `Decl`, `Init`, `Jump` and the wildcard arm do
nothing at all, so those instructions spin on the same `pc`. -/
def proto_run (loop_fuel : Nat) (frame : PLocalFrame) : PRunResult :=
  match loop_fuel with
  | 0 => .OutOfFuel
  | loop_fuel + 1 =>
    if MAX_BACKJUMPS ≤ frame.backjumps then .Err "Too many backwards jumps"
    else
      match frame.instrs[frame.pc]? with
      | none => .Panicked "index out of bounds"
      | some (.Decl _ _) => proto_run loop_fuel frame
      | some (.Init _ _ _) => proto_run loop_fuel frame
      | some (.Jump _ _) => proto_run loop_fuel frame
      | some (.Goto target) =>
        proto_run loop_fuel
          { frame with
            backjumps := if target ≤ frame.pc then frame.backjumps + 1 else frame.backjumps,
            pc := target }
      | some .End =>
        match frame.stack with
        | none => .Ok frame.smt
        | some caller =>
          match frame.vars.head? with
          | none => .Panicked "index out of bounds"
          | some v => proto_run loop_fuel (p_unfreeze_frame (caller (v, frame.smt)))
      | some (.Copy _ _) => proto_run loop_fuel frame
      | some .Other => proto_run loop_fuel frame

/-! # Theorems -/

/-! ## Bitvector invariants (claims about src/concrete.rs) -/

/-- Any `u64` quantity masked by `bzhi_u64` fits the masked width. -/
theorem bzhi_u64_lt {b : Nat} (len : Nat) (h : b < 2 ^ 64) : bzhi_u64 b len < 2 ^ len := by
  unfold bzhi_u64
  split
  · exact lt_of_lt_of_le h (Nat.pow_le_pow_right (by norm_num) (by assumption))
  · exact Nat.mod_lt _ (Nat.pos_pow_of_pos _ (by norm_num))

/-- C3: for equal-length operands satisfying the representation invariants
`bits < 2 ^ length` (and the `u64`-range bound `bits < 2 ^ 64` imposed by
the field's machine type), every bitvector operation — complement, negation,
xor, or, and, addition, subtraction, multiplication, and division/remainder
with a non-zero divisor — produces a result that again satisfies
`bits < 2 ^ length`. -/
theorem sbits_ops_preserve_invariant (x y : Sbits)
    (hlen : x.length = y.length)
    (hx : x.bits < 2 ^ x.length) (hy : y.bits < 2 ^ y.length)
    (hx64 : x.bits < 2 ^ 64) (hy64 : y.bits < 2 ^ 64) :
    (Sbits.snot x).bits < 2 ^ (Sbits.snot x).length ∧
    (Sbits.sneg x).bits < 2 ^ (Sbits.sneg x).length ∧
    (Sbits.sxor x y).bits < 2 ^ (Sbits.sxor x y).length ∧
    (Sbits.sor x y).bits < 2 ^ (Sbits.sor x y).length ∧
    (Sbits.sand x y).bits < 2 ^ (Sbits.sand x y).length ∧
    (Sbits.sadd x y).bits < 2 ^ (Sbits.sadd x y).length ∧
    (Sbits.ssub x y).bits < 2 ^ (Sbits.ssub x y).length ∧
    (Sbits.smul x y).bits < 2 ^ (Sbits.smul x y).length ∧
    (y.bits ≠ 0 → ∀ z, Sbits.sdiv x y = some z → z.bits < 2 ^ z.length) ∧
    (y.bits ≠ 0 → ∀ z, Sbits.srem x y = some z → z.bits < 2 ^ z.length) := by
  refine ⟨?_, ?_, ?_, ?_, ?_, ?_, ?_, ?_, ?_, ?_⟩
  · exact bzhi_u64_lt _ (by omega)
  · exact bzhi_u64_lt _ (Nat.mod_lt _ (by norm_num))
  · exact Nat.xor_lt_two_pow hx (hlen ▸ hy)
  · exact Nat.or_lt_two_pow hx (hlen ▸ hy)
  · exact lt_of_le_of_lt Nat.and_le_left hx
  · exact bzhi_u64_lt _ (Nat.mod_lt _ (by norm_num))
  · exact bzhi_u64_lt _ (Nat.mod_lt _ (by norm_num))
  · exact bzhi_u64_lt _ (Nat.mod_lt _ (by norm_num))
  · intro hz z hdiv
    unfold Sbits.sdiv at hdiv
    rw [if_neg hz] at hdiv
    cases hdiv
    exact bzhi_u64_lt _ (lt_of_le_of_lt (Nat.div_le_self _ _) hx64)
  · intro hz z hrem
    unfold Sbits.srem at hrem
    rw [if_neg hz] at hrem
    cases hrem
    exact bzhi_u64_lt _ (lt_of_le_of_lt (Nat.mod_le _ _) hx64)

/-- Witness for `sbits_ops_preserve_invariant` at the concrete operands
`x = 0b101` and `y = 0b110` of length 3. -/
theorem sbits_ops_preserve_invariant_witness :
    (Sbits.new 5 3).length = (Sbits.new 6 3).length ∧
    (Sbits.new 5 3).bits < 2 ^ (Sbits.new 5 3).length ∧
    (Sbits.new 6 3).bits < 2 ^ (Sbits.new 6 3).length ∧
    ((Sbits.sadd (Sbits.new 5 3) (Sbits.new 6 3)).bits
       < 2 ^ (Sbits.sadd (Sbits.new 5 3) (Sbits.new 6 3)).length) :=
  ⟨by decide, by decide, by decide,
   ((((((((sbits_ops_preserve_invariant (Sbits.new 5 3) (Sbits.new 6 3)
     (by decide) (by decide) (by decide) (by decide)
     (by decide)).2).2).2).2).2).1))⟩

/-- C4 counterexample: at the concrete dividend `0b1` and zero divisor of
length 1, division and remainder abort (the Rust `u64` operations panic and
the operator impls return no value at all — there is no error-value
channel), contradicting the claim that a zero divisor yields an error value
rather than an abort. -/
theorem sdiv_srem_zero_divisor_aborts :
    Sbits.sdiv (Sbits.new 1 1) (Sbits.new 0 1) = none ∧
    Sbits.srem (Sbits.new 1 1) (Sbits.new 0 1) = none := by
  constructor <;> rfl

/-- C4 amended: division and remainder by a zero divisor panic — the
operation aborts with no result value, rather than returning an error value;
for a non-zero divisor they return the quotient/remainder masked to the
operand length. -/
theorem sdiv_srem_amended (x y : Sbits)
    (hx64 : x.bits < 2 ^ 64) (hlen : x.length ≤ 64) :
    (y.bits = 0 → Sbits.sdiv x y = none ∧ Sbits.srem x y = none) ∧
    (y.bits ≠ 0 →
      Sbits.sdiv x y = some { length := x.length, bits := (x.bits / y.bits) % 2 ^ x.length } ∧
      Sbits.srem x y = some { length := x.length, bits := (x.bits % y.bits) % 2 ^ x.length }) := by
  constructor
  · intro hz
    unfold Sbits.sdiv Sbits.srem
    rw [if_pos hz, if_pos hz]
    exact ⟨rfl, rfl⟩
  · intro hz
    unfold Sbits.sdiv Sbits.srem
    rw [if_neg hz, if_neg hz]
    unfold bzhi_u64
    constructor
    · split
      · have h64 : x.length = 64 := by omega
        have hq : x.bits / y.bits < 2 ^ x.length :=
          h64 ▸ lt_of_le_of_lt (Nat.div_le_self _ _) hx64
        rw [Nat.mod_eq_of_lt hq]
      · rfl
    · split
      · have h64 : x.length = 64 := by omega
        have hq : x.bits % y.bits < 2 ^ x.length :=
          h64 ▸ lt_of_le_of_lt (Nat.mod_le _ _) hx64
        rw [Nat.mod_eq_of_lt hq]
      · rfl

/-- Witness for `sdiv_srem_amended` at dividend `9`, divisor `2`, length
4. -/
theorem sdiv_srem_amended_witness :
    (Sbits.new 9 4).bits < 2 ^ 64 ∧ (Sbits.new 9 4).length ≤ 64 ∧
    ((Sbits.new 2 4).bits ≠ 0 →
      Sbits.sdiv (Sbits.new 9 4) (Sbits.new 2 4)
        = some { length := (Sbits.new 9 4).length,
                 bits := ((Sbits.new 9 4).bits / (Sbits.new 2 4).bits)
                   % 2 ^ (Sbits.new 9 4).length } ∧
      Sbits.srem (Sbits.new 9 4) (Sbits.new 2 4)
        = some { length := (Sbits.new 9 4).length,
                 bits := ((Sbits.new 9 4).bits % (Sbits.new 2 4).bits)
                   % 2 ^ (Sbits.new 9 4).length }) :=
  ⟨by decide, by decide,
   (sdiv_srem_amended (Sbits.new 9 4) (Sbits.new 2 4) (by decide) (by decide)).2⟩

/-! ## Renumbering (claims about simplify.rs, `renumber_event`) -/

/-- Renumbering maps the symbol list of an SMT expression pointwise. -/
theorem renumber_exp_syms (i total : Nat) (e : SmtExp) :
    exp_syms (renumber_exp i total e) = (exp_syms e).map (fun v => v * total + i) := by
  induction e <;> simp [renumber_exp, exp_syms, *]

mutual

/-- Renumbering maps the symbol list of a value pointwise. -/
theorem renumber_val_syms (i total : Nat) :
    ∀ v : Val, val_syms (renumber_val i total v) = (val_syms v).map (fun s => s * total + i)
  | .Symbolic v => by simp [renumber_val, val_syms]
  | .I64 _ => by simp [renumber_val, val_syms]
  | .I128 _ => by simp [renumber_val, val_syms]
  | .Bool _ => by simp [renumber_val, val_syms]
  | .Bits _ => by simp [renumber_val, val_syms]
  | .String _ => by simp [renumber_val, val_syms]
  | .Unit => by simp [renumber_val, val_syms]
  | .Ref _ => by simp [renumber_val, val_syms]
  | .Poison => by simp [renumber_val, val_syms]
  | .Uninitialized _ => by simp [renumber_val, val_syms]
  | .List vals => by simp [renumber_val, val_syms, renumber_val_list_syms i total vals]
  | .Vector vals => by simp [renumber_val, val_syms, renumber_val_list_syms i total vals]
  | .Struct fields => by simp [renumber_val, val_syms, renumber_val_fields_syms i total fields]
  | .Ctor _ val => by simp [renumber_val, val_syms, renumber_val_syms i total val]

/-- List version of `renumber_val_syms`. -/
theorem renumber_val_list_syms (i total : Nat) :
    ∀ vs : List Val,
      val_list_syms (renumber_val_list i total vs)
        = (val_list_syms vs).map (fun s => s * total + i)
  | [] => by simp [renumber_val_list, val_list_syms]
  | v :: vs => by
    simp [renumber_val_list, val_list_syms, renumber_val_syms i total v,
      renumber_val_list_syms i total vs]

/-- Struct-field version of `renumber_val_syms`. -/
theorem renumber_val_fields_syms (i total : Nat) :
    ∀ fs : List (Nat × Val),
      val_fields_syms (renumber_val_fields i total fs)
        = (val_fields_syms fs).map (fun s => s * total + i)
  | [] => by simp [renumber_val_fields, val_fields_syms]
  | (f, v) :: fs => by
    simp [renumber_val_fields, val_fields_syms, renumber_val_syms i total v,
      renumber_val_fields_syms i total fs]

end

/-- Renumbering maps the symbol list of an SMT definition pointwise. -/
theorem renumber_def_syms (i total : Nat) (d : Def) :
    def_syms (renumber_def i total d) = (def_syms d).map (fun v => v * total + i) := by
  cases d <;> simp [renumber_def, def_syms, renumber_exp_syms]

/-- Renumbering maps the symbol list of an event pointwise. -/
theorem renumber_event_syms (i total : Nat) (e : Event) :
    event_syms (renumber_event i total e) = (event_syms e).map (fun v => v * total + i) := by
  cases e <;>
    simp [renumber_event, event_syms, renumber_def_syms, renumber_val_syms]

/-- Every renumbered symbol is congruent to `i` modulo `total`. -/
theorem renumbered_mod {i total s : Nat} (hi : i < total) {l : List Nat}
    (hs : s ∈ l.map (fun v => v * total + i)) : s % total = i := by
  obtain ⟨v, _, rfl⟩ := List.mem_map.mp hs
  rw [Nat.add_comm, Nat.add_mul_mod_self_right, Nat.mod_eq_of_lt hi]

/-- Renumbering an SMT expression with `(0, 1)` is the identity. -/
theorem renumber_exp_id (e : SmtExp) : renumber_exp 0 1 e = e := by
  induction e <;> simp [renumber_exp, *]

mutual

/-- Renumbering a value with `(0, 1)` is the identity. -/
theorem renumber_val_id : ∀ v : Val, renumber_val 0 1 v = v
  | .Symbolic v => by simp [renumber_val]
  | .I64 _ => by simp [renumber_val]
  | .I128 _ => by simp [renumber_val]
  | .Bool _ => by simp [renumber_val]
  | .Bits _ => by simp [renumber_val]
  | .String _ => by simp [renumber_val]
  | .Unit => by simp [renumber_val]
  | .Ref _ => by simp [renumber_val]
  | .Poison => by simp [renumber_val]
  | .Uninitialized _ => by simp [renumber_val]
  | .List vals => by simp [renumber_val, renumber_val_list_id vals]
  | .Vector vals => by simp [renumber_val, renumber_val_list_id vals]
  | .Struct fields => by simp [renumber_val, renumber_val_fields_id fields]
  | .Ctor _ val => by simp [renumber_val, renumber_val_id val]

/-- List version of `renumber_val_id`. -/
theorem renumber_val_list_id : ∀ vs : List Val, renumber_val_list 0 1 vs = vs
  | [] => by simp [renumber_val_list]
  | v :: vs => by simp [renumber_val_list, renumber_val_id v, renumber_val_list_id vs]

/-- Struct-field version of `renumber_val_id`. -/
theorem renumber_val_fields_id : ∀ fs : List (Nat × Val), renumber_val_fields 0 1 fs = fs
  | [] => by simp [renumber_val_fields]
  | (f, v) :: fs => by
    simp [renumber_val_fields, renumber_val_id v, renumber_val_fields_id fs]

end

/-- C7: renumbering an event with `(i, total)`, `i < total`, replaces every
symbolic variable `v` occurring anywhere in the event by `v·total + i`
(pointwise on the event's symbol list); renumbering the same base event with
distinct indices `i ≠ j`, both below `total`, yields disjoint symbol sets;
and renumbering with `(i = 0, total = 1)` is the identity. -/
theorem renumber_event_disjoint_and_id (e : Event) (i j total : Nat)
    (hi : i < total) (hj : j < total) (hij : i ≠ j) :
    event_syms (renumber_event i total e) = (event_syms e).map (fun v => v * total + i) ∧
    (∀ s, s ∈ event_syms (renumber_event i total e) →
      s ∉ event_syms (renumber_event j total e)) ∧
    renumber_event 0 1 e = e := by
  refine ⟨renumber_event_syms i total e, ?_, ?_⟩
  · intro s hsi hsj
    rw [renumber_event_syms i total e] at hsi
    rw [renumber_event_syms j total e] at hsj
    exact hij ((renumbered_mod hi hsi) ▸ (renumbered_mod hj hsj))
  · cases e <;>
      simp [renumber_event, renumber_def_syms, renumber_val_id, renumber_exp_id,
        renumber_def]
    case Smt d => cases d <;> simp [renumber_def, renumber_exp_id]

/-- Witness for `renumber_event_disjoint_and_id` on a branch event carrying
symbol 5, with `i = 0`, `j = 1`, `total = 2`. -/
theorem renumber_event_disjoint_and_id_witness :
    0 < 2 ∧ 1 < 2 ∧ (0 : Nat) ≠ 1 ∧
    (event_syms (renumber_event 0 2 (.Branch 5 "loc"))
        = (event_syms (.Branch 5 "loc")).map (fun v => v * 2 + 0) ∧
      (∀ s, s ∈ event_syms (renumber_event 0 2 (.Branch 5 "loc")) →
        s ∉ event_syms (renumber_event 1 2 (.Branch 5 "loc"))) ∧
      renumber_event 0 1 (.Branch 5 "loc") = .Branch 5 "loc") :=
  ⟨by decide, by decide, by decide,
   renumber_event_disjoint_and_id (.Branch 5 "loc") 0 1 2 (by decide) (by decide) (by decide)⟩

/-! ## Dead-symbol elimination (claims about simplify.rs, `remove_unused`) -/

/-- A pass that removes nothing returns its input unchanged. -/
theorem remove_unused_pass_of_removed_zero (es : List Event)
    (h : (remove_unused_pass es).2 = 0) : (remove_unused_pass es).1 = es := by
  simp only [remove_unused_pass] at h ⊢
  rw [List.length_eq_zero, List.filter_eq_nil_iff] at h
  refine List.filter_eq_self.mpr ?_
  intro e he
  have := h e he
  simpa using this

/-- The output of `remove_unused` is a fixed point of the pass: running one
more pass on it removes nothing. -/
theorem remove_unused_output_fixpoint (n : Nat) :
    ∀ es : List Event, es.length ≤ n → (remove_unused_pass (remove_unused es)).2 = 0 := by
  induction n with
  | zero =>
    intro es hlen
    have hes : es = [] := List.eq_nil_of_length_eq_zero (Nat.le_zero.mp hlen)
    subst hes
    rw [remove_unused]
    simp [remove_unused_pass]
  | succ n ih =>
    intro es hlen
    rw [remove_unused]
    split
    case isTrue h =>
      apply ih
      have hsum := List.length_eq_length_filter_add
        (l := es) (keep_event (es.reverse.foldl event_uses no_uses))
      simp only [remove_unused_pass] at h ⊢
      omega
    case isFalse h =>
      have h0 : (remove_unused_pass es).2 = 0 := by omega
      rw [remove_unused_pass_of_removed_zero es h0]
      exact h0

/-- C8: `remove_unused` is idempotent — it iterates a pass removing exactly
the `DeclareConst`/`DefineConst` events whose symbol has zero recorded uses
until a pass removes nothing, so applying it to its own output returns an
identical event list. -/
theorem remove_unused_idempotent (es : List Event) :
    remove_unused (remove_unused es) = remove_unused es := by
  have h0 := remove_unused_output_fixpoint es.length es le_rfl
  rw [remove_unused]
  split
  case isTrue h => omega
  case isFalse h => exact remove_unused_pass_of_removed_zero _ h0

/-! ## Trace textual output (claims about `write_events`) -/

/-- `String.join` unfolds on a cons cell. -/
theorem string_join_cons (x : String) (xs : List String) :
    String.join (x :: xs) = x ++ String.join xs := by
  simp only [String.join, List.foldl_cons]
  suffices h : ∀ (l : List String) (a b : String),
      List.foldl (fun r s => r ++ s) (a ++ b) l = a ++ List.foldl (fun r s => r ++ s) b l by
    simpa using h xs x ""
  intro l
  induction l with
  | nil => intro a b; rfl
  | cons y ys ih => intro a b; simp only [List.foldl_cons, String.append_assoc, ih]

/-- Appending event lines to a buffer by a left fold is the buffer followed
by the joined lines. -/
theorem foldl_event_line (r : EventRenderers) (l : List Event) :
    ∀ buf : String,
      l.foldl (fun b ev => b ++ event_line r ev) buf
        = buf ++ String.join (l.map (event_line r)) := by
  induction l with
  | nil => intro buf; simp [String.join]
  | cons x xs ih =>
    intro buf
    simp only [List.foldl_cons, List.map_cons, ih, string_join_cons, String.append_assoc]

/-- C9 counterexample: a trace consisting of one `ReadReg` of the
distinguished `HAVE_EXCEPTION` register renders identically to the empty
trace — `"(trace)\n"` — so that event produces no output line, contradicting
the claim that every event in the list produces
exactly one line. -/
theorem write_events_have_exception_no_line :
    write_events
        { defStr := fun _ => "d", valStr := fun _ => "v",
          accElemStr := fun _ => "a", regStr := fun _ => "r" }
        [.ReadReg HAVE_EXCEPTION [] .Unit]
      = "(trace)\n" ∧
    write_events
        { defStr := fun _ => "d", valStr := fun _ => "v",
          accElemStr := fun _ => "a", regStr := fun _ => "r" }
        ([] : List Event)
      = "(trace)\n" := by
  constructor <;> rfl

/-- C9 amended: `write_events` opens with `(trace`, renders the events in
reverse collection order — each event contributing its own nonempty
`"\n  (...)"` line, except a `ReadReg` of `HAVE_EXCEPTION`, which
contributes nothing — and closes with `)` and a final newline. -/
theorem write_events_spec (r : EventRenderers) (events : List Event) :
    write_events r events
      = "(trace" ++ String.join (events.reverse.map (event_line r)) ++ ")\n" ∧
    (∀ acc v, event_line r (.ReadReg HAVE_EXCEPTION acc v) = "") ∧
    (∀ e : Event, (∀ acc v, e ≠ .ReadReg HAVE_EXCEPTION acc v) →
      ∃ rest, event_line r e = "\n  " ++ rest) := by
  refine ⟨?_, ?_, ?_⟩
  · unfold write_events
    rw [foldl_event_line]
  · intro acc v; simp [event_line]
  · intro e he
    cases e with
    | Smt d => exact ⟨r.defStr d, rfl⟩
    | ReadReg n acc v =>
      rcases eq_or_ne n HAVE_EXCEPTION with hn | hn
      · exact absurd (by rw [hn]) (he acc v)
      · refine ⟨"(read-reg |" ++ r.regStr n ++ "| " ++ accessor_to_string r.accElemStr acc
          ++ " " ++ r.valStr v ++ ")", ?_⟩
        simp only [event_line, if_neg hn, ← String.append_assoc]
        rfl
    | WriteReg n acc v =>
      refine ⟨"(write-reg |" ++ r.regStr n ++ "| " ++ accessor_to_string r.accElemStr acc
        ++ " " ++ r.valStr v ++ ")", ?_⟩
      simp only [event_line, ← String.append_assoc]
      rfl
    | ReadMem value read_kind address bytes =>
      refine ⟨"(read-mem " ++ r.valStr value ++ " " ++ r.valStr read_kind ++ " "
        ++ r.valStr address ++ " " ++ toString bytes ++ ")", ?_⟩
      simp only [event_line, ← String.append_assoc]
      rfl
    | WriteMem value write_kind address data bytes =>
      refine ⟨"(write-mem v" ++ toString value ++ " " ++ r.valStr write_kind ++ " "
        ++ r.valStr address ++ " " ++ r.valStr data ++ " " ++ toString bytes ++ ")", ?_⟩
      simp only [event_line, ← String.append_assoc]
      rfl
    | Branch n loc =>
      refine ⟨"(branch " ++ toString n ++ " \"" ++ loc ++ "\")", ?_⟩
      simp only [event_line, ← String.append_assoc]
      rfl
    | Instr v =>
      refine ⟨"(instr " ++ r.valStr v ++ ")", ?_⟩
      simp only [event_line, ← String.append_assoc]
      rfl
    | Sleeping v =>
      refine ⟨"(sleeping v" ++ toString v ++ ")", ?_⟩
      simp only [event_line, ← String.append_assoc]
      rfl
    | Cycle => exact ⟨"(cycle)", rfl⟩
    | SleepRequest => exact ⟨"(sleep-request)", rfl⟩
    | WakeupRequest => exact ⟨"(wake-request)", rfl⟩

/-- Witness for `write_events_spec` on a one-event trace. -/
theorem write_events_spec_witness :
    write_events
        { defStr := fun _ => "d", valStr := fun _ => "v",
          accElemStr := fun _ => "a", regStr := fun _ => "r" }
        [.Cycle]
      = "(trace"
          ++ String.join (([Event.Cycle].reverse).map (event_line
               { defStr := fun _ => "d", valStr := fun _ => "v",
                 accElemStr := fun _ => "a", regStr := fun _ => "r" }))
          ++ ")\n" :=
  (write_events_spec
    { defStr := fun _ => "d", valStr := fun _ => "v",
      accElemStr := fun _ => "a", regStr := fun _ => "r" }
    [.Cycle]).1

/-! ## Symbolic allocation (claims about executor.rs, `symbolic`) -/

/-- C2 counterexample: for a known struct type, `symbolic` does not return
`NoSymbolicType` — it recurses over the declared fields and returns a
concrete `Struct` value (here with no fields), so the claim that every type
other than Unit/Bits/I64/I128/Bit/Bool/Enum fails with `NoSymbolicType` is
false at `Ty.Struct`. -/
theorem symbolic_struct_not_no_symbolic_type :
    symbolic 2 (.Struct 0) { structs := [(0, [])], enums := [], enum_members := [] } ⟨0, []⟩
      = .ok (.Struct [], ⟨0, []⟩) ∧
    symbolic 2 (.Struct 0) { structs := [(0, [])], enums := [], enum_members := [] } ⟨0, []⟩
      ≠ .error .NoSymbolicType := by
  have h : symbolic 2 (.Struct 0)
      { structs := [(0, [])], enums := [], enum_members := [] } ⟨0, []⟩
      = .ok (.Struct [], ⟨0, []⟩) := by
    simp [symbolic, symbolic_fields, List.lookup]
  exact ⟨h, by rw [h]; simp⟩

/-- C2 amended: `symbolic` returns the concrete `Unit` for Unit and the
concrete width-0 bitvector for `Bits(0)` without consulting the solver;
declares one fresh constant of the corresponding sort for `Bits(n>0)`, I64,
I128, Bit and Bool and returns `Symbolic` of it; for `Enum` declares a fresh
8-bit constant `v` and asserts `v <ᵤ card(enum)`; for a `Struct` it recurses
over the declared fields producing a concrete `Struct` with symbolic leaves
(an unknown struct name is an `Unreachable` error); and every remaining
type (represented by `Vector`) fails with `NoSymbolicType`. -/
theorem symbolic_spec (fuel : Nat) (ss : SharedState) (solver : Solver) :
    symbolic (fuel + 1) .Unit ss solver = .ok (.Unit, solver) ∧
    symbolic (fuel + 1) (.Bits 0) ss solver = .ok (.Bits (Sbits.new 0 0), solver) ∧
    (∀ n, symbolic (fuel + 1) (.Bits (n + 1)) ss solver
      = .ok (.Symbolic solver.count,
          { count := solver.count + 1,
            defs := solver.defs ++ [.DeclareConst solver.count (.BitVec (n + 1))] })) ∧
    symbolic (fuel + 1) .I64 ss solver
      = .ok (.Symbolic solver.count,
          { count := solver.count + 1,
            defs := solver.defs ++ [.DeclareConst solver.count (.BitVec 64)] }) ∧
    symbolic (fuel + 1) .I128 ss solver
      = .ok (.Symbolic solver.count,
          { count := solver.count + 1,
            defs := solver.defs ++ [.DeclareConst solver.count (.BitVec 128)] }) ∧
    symbolic (fuel + 1) .Bit ss solver
      = .ok (.Symbolic solver.count,
          { count := solver.count + 1,
            defs := solver.defs ++ [.DeclareConst solver.count (.BitVec 1)] }) ∧
    symbolic (fuel + 1) .Bool ss solver
      = .ok (.Symbolic solver.count,
          { count := solver.count + 1,
            defs := solver.defs ++ [.DeclareConst solver.count .Bool] }) ∧
    (∀ name members, List.lookup name ss.enums = some members →
      symbolic (fuel + 1) (.Enum name) ss solver
        = .ok (.Symbolic solver.count,
            { count := solver.count + 1,
              defs := solver.defs
                ++ [.DeclareConst solver.count (.BitVec 8),
                    .Assert (.Bvult (.Var solver.count) (smt_u8 members.length))] })) ∧
    (∀ name, List.lookup name ss.structs = none →
      symbolic (fuel + 1) (.Struct name) ss solver
        = .error (.Unreachable "Struct does not appear to exist!")) ∧
    (∀ name fts fields s1, List.lookup name ss.structs = some fts →
      symbolic_fields fuel fts ss solver = .ok (fields, s1) →
      symbolic (fuel + 1) (.Struct name) ss solver = .ok (.Struct fields, s1)) ∧
    (∀ ty, symbolic (fuel + 1) (.Vector ty) ss solver = .error .NoSymbolicType) := by
  refine ⟨?_, ?_, ?_, ?_, ?_, ?_, ?_, ?_, ?_, ?_, ?_⟩
  · simp [symbolic]
  · simp [symbolic]
  · intro n; simp [symbolic, declare_fresh, Solver.fresh, Solver.add]
  · simp [symbolic, declare_fresh, Solver.fresh, Solver.add]
  · simp [symbolic, declare_fresh, Solver.fresh, Solver.add]
  · simp [symbolic, declare_fresh, Solver.fresh, Solver.add]
  · simp [symbolic, declare_fresh, Solver.fresh, Solver.add]
  · intro name members hm
    simp [symbolic, hm, Solver.fresh, Solver.add]
  · intro name hn
    simp [symbolic, hn]
  · intro name fts fields s1 hn hf
    simp [symbolic, hn, hf]
  · intro ty; simp [symbolic]

/-- Witness for `symbolic_spec`: the enum clause at a concrete two-member
enum table. -/
theorem symbolic_spec_witness :
    List.lookup 3 ([(3, [7, 8])] : List (Nat × List Nat)) = some [7, 8] ∧
    symbolic (0 + 1) (.Enum 3)
        { structs := [], enums := [(3, [7, 8])], enum_members := [] } ⟨0, []⟩
      = .ok (.Symbolic (Solver.mk 0 []).count,
          { count := (Solver.mk 0 []).count + 1,
            defs := (Solver.mk 0 []).defs
              ++ [.DeclareConst (Solver.mk 0 []).count (.BitVec 8),
                  .Assert (.Bvult (.Var (Solver.mk 0 []).count)
                    (smt_u8 ([7, 8] : List Nat).length))] }) :=
  ⟨rfl,
   (symbolic_spec 0 { structs := [], enums := [(3, [7, 8])], enum_members := [] }
      ⟨0, []⟩).2.2.2.2.2.2.2.1 3 [7, 8] rfl⟩

/-! ## Lazy initialisation (claims about executor.rs, `get_and_init`) -/

/-- `symbolic` never returns an `Uninitialized` marker: every success value
is `Unit`, a concrete bitvector, a `Symbolic` handle or a `Struct`. -/
theorem symbolic_ne_uninitialized (fuel : Nat) (ty : Ty) (ss : SharedState)
    (solver : Solver) (val : Val) (s1 : Solver)
    (h : symbolic fuel ty ss solver = .ok (val, s1)) :
    ∀ ty0, val ≠ .Uninitialized ty0 := by
  intro ty0 hval
  subst hval
  cases fuel with
  | zero => simp [symbolic] at h
  | succ fuel =>
    cases ty with
    | Unit => simp [symbolic] at h
    | Bool => simp [symbolic, declare_fresh, Solver.fresh, Solver.add] at h
    | Bit => simp [symbolic, declare_fresh, Solver.fresh, Solver.add] at h
    | I64 => simp [symbolic, declare_fresh, Solver.fresh, Solver.add] at h
    | I128 => simp [symbolic, declare_fresh, Solver.fresh, Solver.add] at h
    | Bits n =>
      cases n <;> simp [symbolic, declare_fresh, Solver.fresh, Solver.add] at h
    | Struct name =>
      rcases hl : List.lookup name ss.structs with _ | fts
      · simp [symbolic, hl] at h
      · rcases hf : symbolic_fields fuel fts ss solver with e | p
        · simp [symbolic, hl, hf] at h
        · simp [symbolic, hl, hf] at h
    | Enum name =>
      rcases hl : List.lookup name ss.enums with _ | members <;>
        simp [symbolic, hl, Solver.fresh, Solver.add] at h
    | Vector ty => simp [symbolic] at h

/-- C6: `get_and_init` is idempotent.  When the slot for `v` holds
`Uninitialized(ty)` and `symbolic` produces `val`, the first call returns
`val` after writing it back into the same slot; a second call on the
resulting environment returns exactly the same value with the solver left
completely untouched (no new declaration); a slot holding an ordinary value
is returned unchanged; and a missing key returns `none`. -/
theorem get_and_init_idempotent (fuel v : Nat) (ty : Ty) (vars : VarMap)
    (ss : SharedState) (solver : Solver) (val : Val) (s1 : Solver)
    (hslot : vars v = some (.Uninitialized ty))
    (hsym : symbolic fuel ty ss solver = .ok (val, s1)) :
    get_and_init fuel v vars ss solver
      = .ok (some val, vmap_insert vars v val, s1) ∧
    get_and_init fuel v (vmap_insert vars v val) ss s1
      = .ok (some val, vmap_insert vars v val, s1) ∧
    (∀ w value, vars w = some value → (∀ ty0, value ≠ .Uninitialized ty0) →
      get_and_init fuel w vars ss solver = .ok (some value, vars, solver)) ∧
    (∀ w, vars w = none →
      get_and_init fuel w vars ss solver = .ok (none, vars, solver)) := by
  have hne := symbolic_ne_uninitialized fuel ty ss solver val s1 hsym
  refine ⟨?_, ?_, ?_, ?_⟩
  · simp only [get_and_init, hslot, hsym]
  · have hl : vmap_insert vars v val v = some val := by simp [vmap_insert]
    simp only [get_and_init, hl]
  · intro w value hw hval
    simp only [get_and_init, hw]
  · intro w hw
    simp only [get_and_init, hw]

/-- Witness for `get_and_init_idempotent`: slot 5 uninitialised at
type Bool, the fresh symbolic being `v0`. -/
theorem get_and_init_idempotent_witness :
    (fun x => if x = 5 then some (Val.Uninitialized .Bool) else none : VarMap) 5
      = some (.Uninitialized .Bool) ∧
    symbolic 1 .Bool ⟨[], [], []⟩ ⟨0, []⟩
      = .ok (.Symbolic 0, ⟨1, [.DeclareConst 0 .Bool]⟩) ∧
    get_and_init 1 5 (fun x => if x = 5 then some (.Uninitialized .Bool) else none)
        ⟨[], [], []⟩ ⟨0, []⟩
      = .ok (some (.Symbolic 0),
          vmap_insert (fun x => if x = 5 then some (.Uninitialized .Bool) else none) 5
            (.Symbolic 0),
          ⟨1, [.DeclareConst 0 .Bool]⟩) := by
  have hsym : symbolic 1 .Bool ⟨[], [], []⟩ ⟨0, []⟩
      = .ok (.Symbolic 0, ⟨1, [.DeclareConst 0 .Bool]⟩) := by
    simp [symbolic, declare_fresh, Solver.fresh, Solver.add]
  exact ⟨rfl, hsym,
    (get_and_init_idempotent 1 5 .Bool
      (fun x => if x = 5 then some (.Uninitialized .Bool) else none)
      ⟨[], [], []⟩ ⟨0, []⟩ (.Symbolic 0) ⟨1, [.DeclareConst 0 .Bool]⟩ rfl hsym).1⟩

/-! ## The `Op::Unsigned` primitive (claims about executor.rs, `eval_exp`) -/

/-- C10 counterexample: at width 0 the `Unsigned` opcode does not declare
any symbolic bitvector — the solver comes back untouched (count still 0,
no definitions) and the result is the concrete width-0 bitvector, not a
`Symbolic` handle.  The claim that every `Call(Op::Unsigned(n), args)`
declares a fresh symbolic of width `n` is therefore false at `n = 0`. -/
theorem eval_unsigned_zero_concrete :
    eval_exp 1 (.Call (.Unsigned 0) []) vmap_empty vmap_empty ⟨[], [], []⟩ ⟨0, []⟩
      = .ok (.Bits (Sbits.new 0 0), vmap_empty, vmap_empty, ⟨0, []⟩) := by
  simp [eval_exp, eval_exp_args, symbolic]

/-- C10 amended: evaluating `Call(Op::Unsigned(n), args)` first evaluates
the arguments (for their effects only) and then ignores their values
entirely: for `n > 0` it declares one fresh, unconstrained symbolic
bitvector of width `n` — the solver gains exactly one `DeclareConst` and no
`Assert`, so no assertion relates the result to the arguments — and returns
`Symbolic` of it; for `n = 0` it returns the concrete width-0 bitvector
without consulting the solver. -/
theorem eval_unsigned_spec (fuel : Nat) (args : List IExp) (vars globals : VarMap)
    (ss : SharedState) (solver : Solver) (vals : List Val)
    (vars1 globals1 : VarMap) (s1 : Solver)
    (hargs : eval_exp_args (fuel + 1) args vars globals ss solver
      = .ok (vals, vars1, globals1, s1)) :
    (∀ n, eval_exp (fuel + 1) (.Call (.Unsigned (n + 1)) args) vars globals ss solver
      = .ok (.Symbolic s1.count, vars1, globals1,
          { count := s1.count + 1,
            defs := s1.defs ++ [.DeclareConst s1.count (.BitVec (n + 1))] })) ∧
    eval_exp (fuel + 1) (.Call (.Unsigned 0) args) vars globals ss solver
      = .ok (.Bits (Sbits.new 0 0), vars1, globals1, s1) := by
  constructor
  · intro n
    simp only [eval_exp, hargs]
    simp [symbolic, declare_fresh, Solver.fresh, Solver.add]
  · simp only [eval_exp, hargs]
    simp [symbolic]

/-- Witness for `eval_unsigned_spec` at an empty argument list and width
8. -/
theorem eval_unsigned_spec_witness :
    eval_exp_args (0 + 1) [] vmap_empty vmap_empty ⟨[], [], []⟩ ⟨0, []⟩
      = .ok ([], vmap_empty, vmap_empty, ⟨0, []⟩) ∧
    eval_exp (0 + 1) (.Call (.Unsigned (7 + 1)) []) vmap_empty vmap_empty ⟨[], [], []⟩ ⟨0, []⟩
      = .ok (.Symbolic (Solver.mk 0 []).count, vmap_empty, vmap_empty,
          { count := (Solver.mk 0 []).count + 1,
            defs := (Solver.mk 0 []).defs
              ++ [.DeclareConst (Solver.mk 0 []).count (.BitVec (7 + 1))] }) := by
  have hargs : eval_exp_args (0 + 1) [] vmap_empty vmap_empty ⟨[], [], []⟩ ⟨0, []⟩
      = .ok ([], vmap_empty, vmap_empty, ⟨0, []⟩) := by
    simp [eval_exp_args]
  exact ⟨hargs,
    (eval_unsigned_spec 0 [] vmap_empty vmap_empty ⟨[], [], []⟩ ⟨0, []⟩ []
      vmap_empty vmap_empty ⟨0, []⟩ hargs).1 7⟩

/-! ## Symbolic branching (claims about executor.rs, `run`, `Instr::Jump`) -/

/-- C1: when `Jump(e, t)` evaluates to `Symbolic(v)`, the interpreter
queries satisfiability of `v` and of `¬v`; if both are satisfiable it
checkpoints the solver with the `¬v` assertion pending, freezes the current
frame at `pc + 1`, pushes exactly that false-arm fork, then asserts `v` into
the live solver and sets `pc ← t` (the false arm is always the pushed
background task, never the live one); if only `v` is satisfiable it asserts
`v` and sets `pc ← t`; if only `¬v` is satisfiable it asserts `¬v` and sets
`pc ← pc + 1`; and if neither is satisfiable it fails with `Dead`. -/
theorem jump_symbolic_fork {σ : Type} (fuel : Nat) (sat : SatOracle) (app : StackApp σ)
    (ss : SharedState) (frame : Frame σ) (solver : Solver)
    (exp : IExp) (target : Nat) (v : Nat) (vars1 globals1 : VarMap) (s1 : Solver)
    (hinstr : frame.instrs[frame.pc]? = some (.Jump exp target))
    (heval : eval_exp fuel exp frame.vars frame.globals ss solver
      = .ok (.Symbolic v, vars1, globals1, s1)) :
    (sat s1.defs (.Var v) = true → sat s1.defs (.Not (.Var v)) = true →
      exec_step fuel sat app ss frame solver
        = .Continue { frame with pc := target, vars := vars1, globals := globals1 }
            (s1.add (.Assert (.Var v)))
            [({ frame with pc := frame.pc + 1, vars := vars1, globals := globals1 },
              s1.checkpoint_with (.Assert (.Not (.Var v))))]) ∧
    (sat s1.defs (.Var v) = true → sat s1.defs (.Not (.Var v)) = false →
      exec_step fuel sat app ss frame solver
        = .Continue { frame with pc := target, vars := vars1, globals := globals1 }
            (s1.add (.Assert (.Var v))) []) ∧
    (sat s1.defs (.Var v) = false → sat s1.defs (.Not (.Var v)) = true →
      exec_step fuel sat app ss frame solver
        = .Continue { frame with pc := frame.pc + 1, vars := vars1, globals := globals1 }
            (s1.add (.Assert (.Not (.Var v)))) []) ∧
    (sat s1.defs (.Var v) = false → sat s1.defs (.Not (.Var v)) = false →
      exec_step fuel sat app ss frame solver = .Failed .Dead) := by
  refine ⟨?_, ?_, ?_, ?_⟩ <;> intro h1 h2 <;>
    simp [exec_step, hinstr, heval, h1, h2]

/-- Witness for `jump_symbolic_fork`: a one-instruction program jumping on
the symbolic boolean `v7` held in variable 5, under an oracle that reports
both arms satisfiable. -/
theorem jump_symbolic_fork_witness :
    ({ pc := 0, backjumps := 0,
       vars := fun x => if x = 5 then some (.Symbolic 7) else none,
       globals := vmap_empty, instrs := [.Jump (.Id 5) 3],
       stack := none } : Frame Unit).instrs[
         ({ pc := 0, backjumps := 0,
            vars := fun x => if x = 5 then some (.Symbolic 7) else none,
            globals := vmap_empty, instrs := [.Jump (.Id 5) 3],
            stack := none } : Frame Unit).pc]? = some (.Jump (.Id 5) 3) ∧
    eval_exp 1 (.Id 5) (fun x => if x = 5 then some (.Symbolic 7) else none) vmap_empty
        ⟨[], [], []⟩ ⟨8, []⟩
      = .ok (.Symbolic 7, fun x => if x = 5 then some (.Symbolic 7) else none,
          vmap_empty, ⟨8, []⟩) ∧
    ((fun _ _ => true : SatOracle) (Solver.mk 8 []).defs (.Var 7) = true →
      (fun _ _ => true : SatOracle) (Solver.mk 8 []).defs (.Not (.Var 7)) = true →
      exec_step 1 (fun _ _ => true) (fun (_ : Unit) _ f s => .ok (f, s)) ⟨[], [], []⟩
          { pc := 0, backjumps := 0,
            vars := fun x => if x = 5 then some (.Symbolic 7) else none,
            globals := vmap_empty, instrs := [.Jump (.Id 5) 3], stack := none } ⟨8, []⟩
        = .Continue
            { pc := 3, backjumps := 0,
              vars := fun x => if x = 5 then some (.Symbolic 7) else none,
              globals := vmap_empty, instrs := [.Jump (.Id 5) 3], stack := none }
            ((Solver.mk 8 []).add (.Assert (.Var 7)))
            [({ pc := 0 + 1, backjumps := 0,
                vars := fun x => if x = 5 then some (.Symbolic 7) else none,
                globals := vmap_empty, instrs := [.Jump (.Id 5) 3], stack := none },
              (Solver.mk 8 []).checkpoint_with (.Assert (.Not (.Var 7))))]) := by
  have heval : eval_exp 1 (.Id 5) (fun x => if x = 5 then some (.Symbolic 7) else none)
      vmap_empty ⟨[], [], []⟩ ⟨8, []⟩
      = .ok (.Symbolic 7, fun x => if x = 5 then some (.Symbolic 7) else none,
          vmap_empty, ⟨8, []⟩) := by
    simp [eval_exp, get_and_init]
  exact ⟨rfl, heval,
    (jump_symbolic_fork 1 (fun _ _ => true) (fun (_ : Unit) _ f s => .ok (f, s))
      ⟨[], [], []⟩
      { pc := 0, backjumps := 0,
        vars := fun x => if x = 5 then some (.Symbolic 7) else none,
        globals := vmap_empty, instrs := [.Jump (.Id 5) 3], stack := none }
      ⟨8, []⟩ (.Id 5) 3 7
      (fun x => if x = 5 then some (.Symbolic 7) else none) vmap_empty ⟨8, []⟩
      rfl heval).1⟩

/-! ## The backward-jump budget (claims about `run` in executor.rs and
src/main.rs) -/

/-- C5 counterexample: the library interpreter's run loop neither tracks nor
enforces the backward-jump budget.  On a frame whose counter already equals
`MAX_BACKJUMPS = 20` and whose instruction is the backward jump `Goto 0`,
one loop iteration continues normally — same frame, counter still 20, no
error — and iterating the loop 50 times just keeps spinning (the model's
fuel runs out rather than the path stopping with an error). -/
theorem exec_run_ignores_backjump_budget :
    exec_step 1 (fun _ _ => true) (fun (_ : Unit) _ f s => .ok (f, s)) ⟨[], [], []⟩
        { pc := 0, backjumps := MAX_BACKJUMPS, vars := vmap_empty, globals := vmap_empty,
          instrs := [.Goto 0], stack := none } ⟨0, []⟩
      = .Continue
          { pc := 0, backjumps := MAX_BACKJUMPS, vars := vmap_empty, globals := vmap_empty,
            instrs := [.Goto 0], stack := none } ⟨0, []⟩ [] ∧
    exec_run 50 1 (fun _ _ => true) (fun (_ : Unit) _ f s => .ok (f, s)) ⟨[], [], []⟩
        { pc := 0, backjumps := MAX_BACKJUMPS, vars := vmap_empty, globals := vmap_empty,
          instrs := [.Goto 0], stack := none } ⟨0, []⟩ []
      = .OutOfFuel := by
  constructor
  · rfl
  · have hstep : ∀ n,
        exec_run n 1 (fun _ _ => true) (fun (_ : Unit) _ f s => .ok (f, s)) ⟨[], [], []⟩
          { pc := 0, backjumps := MAX_BACKJUMPS, vars := vmap_empty, globals := vmap_empty,
            instrs := [.Goto 0], stack := none } ⟨0, []⟩ []
          = .OutOfFuel := by
      intro n
      induction n with
      | zero => rfl
      | succ n ih => rw [exec_run]; exact ih
    exact hstep 50

/-- C5 amended: the backward-jump budget exists only in the prototype
interpreter of src/main.rs.  There, every loop iteration first checks the
counter against `MAX_BACKJUMPS = 20` and stops the path with the error
"Too many backwards jumps" once it is reached; a `Goto` whose target is at
or before the current `pc` increments the counter.  A concrete backward
loop (`Goto 0` at `pc 0`) reaches the budget and stops with that error.
The library interpreter (executor.rs `run`) carries the `backjumps` field in
its frames but never increments or consults it. -/
theorem proto_backjump_budget (loop_fuel : Nat) (frame : PLocalFrame) :
    (MAX_BACKJUMPS ≤ frame.backjumps →
      proto_run (loop_fuel + 1) frame = .Err "Too many backwards jumps") ∧
    (∀ target, frame.backjumps < MAX_BACKJUMPS →
      frame.instrs[frame.pc]? = some (.Goto target) → target ≤ frame.pc →
      proto_run (loop_fuel + 1) frame
        = proto_run loop_fuel
            { frame with backjumps := frame.backjumps + 1, pc := target }) ∧
    proto_run 21 { pc := 0, backjumps := 0, vars := [], instrs := [.Goto 0],
                   stack := none, smt := [] }
      = .Err "Too many backwards jumps" := by
  refine ⟨?_, ?_, ?_⟩
  · intro hb
    simp [proto_run, Nat.not_lt.mpr hb, hb]
  · intro target hb hinstr htgt
    simp [proto_run, Nat.not_le.mpr hb, hinstr, htgt]
  · rfl

/-- Witness for `proto_backjump_budget` at a frame that has already consumed
the whole budget. -/
theorem proto_backjump_budget_witness :
    MAX_BACKJUMPS ≤ (PLocalFrame.mk 0 20 [] [.Goto 0] none []).backjumps ∧
    proto_run (3 + 1) (PLocalFrame.mk 0 20 [] [.Goto 0] none [])
      = .Err "Too many backwards jumps" :=
  ⟨by decide,
   (proto_backjump_budget 3 (PLocalFrame.mk 0 20 [] [.Goto 0] none [])).1 (by decide)⟩
